import Mathlib

set_option maxRecDepth 8000

/-!
Verification development for the `lameboy` Game-Boy emulator core
(`src/Clock.ts`, `src/Memory.ts`, `src/Mbc3.ts`, `src/RegisterStore.ts`,
`src/Cpu.ts`, `src/Display.ts`).

Each TypeScript component is shallowly embedded as executable Lean
definitions.  JavaScript numbers are modelled as `Nat`; bitwise tricks of
the source are translated as follows (each noted where used):
  * `x & 255`  (`LO_8`)            = `x % 256`
  * `x & ~255` (`HI_8 = ~255`)     = `x - x % 256`   (clears the low 8 bits;
    all values occurring here are far below 2^31, where the JS 32-bit
    signed `&` agrees with this reading)
  * `data >> 8` used as a truthiness test  =  `256 ≤ data`
Fallible code (`throw new Error(...)`) is embedded with `Except EmErr`,
where `EmErr` keeps the data reported by each distinct error message.
-/

/-! ### Clock (src/Clock.ts)

A `Schedulable` is a `(targetTime, callback)` pair; callbacks are kept
abstract (type `α`) and interpreted by a `run` function that returns the
updated world `σ` together with the list of `(fromNow, callback)` pairs
the callback passed to `schedule` while it ran.  The pending collection
is a min-heap in the source (ordered by `targetTime`); it is modelled as
a list from which `popMin` removes an element of least `targetTime`. -/

structure Sched (α : Type) where
  targetTime : Nat
  callback : α
deriving DecidableEq

/-- `schedule(fromNow, callback)` enqueues at absolute time `now + fromNow`. -/
def schedule (now : Nat) (p : Nat × α) : Sched α :=
  ⟨now + p.1, p.2⟩

/-- `Heap.pop`: remove an element with least `targetTime` (deterministic:
the earliest-positioned minimum is taken). -/
def popMin : List (Sched α) → Option (Sched α × List (Sched α))
  | [] => none
  | x :: xs =>
    match popMin xs with
    | none => some (x, [])
    | some (m, rest) =>
      if x.targetTime ≤ m.targetTime then some (x, xs) else some (m, x :: rest)

/-- Result of running `advance`: normal completion (with the final time,
final world, remaining queue and the `targetTime`s of the callbacks that
fired, in firing order), an error raised by a callback, or fuel
exhaustion (the source loop would still be running). -/
inductive RunOut (ε σ α : Type) where
  | ok (time : Nat) (st : σ) (pending : List (Sched α)) (fired : List Nat)
  | err (e : ε)
  | out

/-- The `while (true)` loop of `Clock.advance`, with explicit fuel.
Before a callback is invoked the source sets `this._time` to the
callback's `targetTime`; hence events scheduled by the callback are
enqueued relative to that time (`schedule s.targetTime`). After the loop
the source sets `this._time = endTime`, which is the time carried by
`.ok`. -/
def advanceLoop (run : α → σ → Except ε (σ × List (Nat × α))) (endT : Nat) :
    Nat → σ → List (Sched α) → List Nat → RunOut ε σ α
  | 0, _, _, _ => .out
  | fuel + 1, st, pending, fired =>
    match popMin pending with
    | none => .ok endT st [] fired
    | some (s, rest) =>
      if endT ≤ s.targetTime then
        -- `schedulable.targetTime >= endTime`: push it back and stop.
        .ok endT st (s :: rest) fired
      else
        match run s.callback st with
        | .error e => .err e
        | .ok (st', news) =>
          advanceLoop run endT fuel st' (rest ++ news.map (schedule s.targetTime))
            (fired ++ [s.targetTime])

/-- `Clock.advance(offset)` from current time `t`. -/
def Clock.advance (run : α → σ → Except ε (σ × List (Nat × α))) (fuel : Nat)
    (t offset : Nat) (st : σ) (pending : List (Sched α)) : RunOut ε σ α :=
  advanceLoop run (t + offset) fuel st pending []

/-- No-op callbacks for the concrete Clock example of §8 of the spec. -/
def noopCb : Unit → Unit → Except Unit (Unit × List (Nat × Unit)) :=
  fun _ _ => .ok ((), [])

/-! ### Error values

One constructor per distinct `throw new Error(...)` site relevant to the
claims, carrying exactly the data interpolated into the message. -/

inductive EmErr where
  | writeTooBig (data : Nat)            -- Memory.write: "Writing data bigger than a byte: d"
  | unsupportedWrite (data addr : Nat)  -- Memory.write: "unsupported write of d at: addr"
  | readUnsupported (addr : Nat)        -- Memory.read: "Reading unsupported address: addr"
  | invalidRamBank (data : Nat)         -- Mbc3.selectRamBank: "Invalid ram bank: d"
  | unimplInstr (opcode pc : Nat)       -- Cpu._getOpcode default case
  | invalidSize (size opcode : Nat)     -- Cpu._executeOpcode default case
deriving DecidableEq

/-! ### Mbc3 (src/Mbc3.ts) -/

inductive RtcState where
  | awaiting0
  | awaiting1
deriving DecidableEq

structure Mbc3 where
  ramEnabled : Bool
  selectedRomBank : Nat
  selectedRamBank : Nat
  rtcState : RtcState
deriving DecidableEq

def Mbc3.init : Mbc3 :=
  { ramEnabled := false, selectedRomBank := 0x1, selectedRamBank := 0x0,
    rtcState := .awaiting0 }

/-- `(data & 0xF) === 0x0A` enables RAM; anything else disables it. -/
def Mbc3.enableRam (c : Mbc3) (data : Nat) : Mbc3 :=
  if data % 16 = 0x0A then { c with ramEnabled := true }
  else { c with ramEnabled := false }

/-- `data & 0x7F`, with bank 0 aliased to bank 1. -/
def Mbc3.selectRomBank (c : Mbc3) (data : Nat) : Mbc3 :=
  let bank := data % 0x80
  if bank = 0x0 then { c with selectedRomBank := 0x1 }
  else { c with selectedRomBank := bank }

/-- Codes 0–3 select RAM banks, 8–0xC select RTC registers; anything
else throws `Invalid ram bank`. -/
def Mbc3.selectRamBank (c : Mbc3) (data : Nat) : Except EmErr Mbc3 :=
  if data < 0x4 ∨ (0x8 ≤ data ∧ data ≤ 0xC) then
    .ok { c with selectedRamBank := data }
  else
    .error (.invalidRamBank data)

def Mbc3.latchClockData (c : Mbc3) (data : Nat) : Mbc3 :=
  if data = 0x0 ∧ c.rtcState = .awaiting0 then { c with rtcState := .awaiting1 }
  else if data = 0x1 ∧ c.rtcState = .awaiting1 then { c with rtcState := .awaiting0 }
  else c

/-! ### Memory (src/Memory.ts)

Register address constants, named as in the source. -/

def INTERRUPT_ENABLE_REG : Nat := 0xFFFF
def INTERRUPT_REQUEST_REG : Nat := 0xFF0F
def SB : Nat := 0xFF01
def SC : Nat := 0xFF02
def DIV : Nat := 0xFF04
def TIMA : Nat := 0xFF05
def TMA : Nat := 0xFF06
def TAC : Nat := 0xFF07
def NR10 : Nat := 0xFF10
def NR11 : Nat := 0xFF11
def NR12 : Nat := 0xFF12
def NR14 : Nat := 0xFF14
def NR21 : Nat := 0xFF16
def NR22 : Nat := 0xFF17
def NR24 : Nat := 0xFF19
def NR30 : Nat := 0xFF1A
def NR31 : Nat := 0xFF1B
def NR32 : Nat := 0xFF1C
def NR33 : Nat := 0xFF1E
def NR41 : Nat := 0xFF20
def NR42 : Nat := 0xFF21
def NR43 : Nat := 0xFF22
def NR44 : Nat := 0xFF23
def NR50 : Nat := 0xFF24
def NR51 : Nat := 0xFF25
def NR52 : Nat := 0xFF26
def LCDC : Nat := 0xFF40
def STAT : Nat := 0xFF41
def SCY : Nat := 0xFF42
def SCX : Nat := 0xFF43
def LY : Nat := 0xFF44
def LYC : Nat := 0xFF45
def BGP : Nat := 0xFF47
def OBP0 : Nat := 0xFF48
def OBP1 : Nat := 0xFF49
def WY : Nat := 0xFF4A
def WX : Nat := 0xFF4B
def VBK : Nat := 0xFF4F
def BGPI : Nat := 0xFF68
def BGPD : Nat := 0xFF69
def OBPI : Nat := 0xFF6A
def OBPD : Nat := 0xFF6B
def SVBK : Nat := 0xFF70
def IE : Nat := 0xFFFF

/-- Pointwise update of a byte array modelled as a function. -/
def updFn (f : Nat → Nat) (i v : Nat) : Nat → Nat :=
  fun j => if j = i then v else f j

/-- The addressable storage of `Memory`.  Byte arrays that no modelled
execution mutates are functions; `hram` (the 0xFF00–0xFFFF block, which
the modelled runs do mutate) is a 256-byte list so that whole-state
equalities are computable.  The `_watches` map is omitted: in every
machine configuration modelled here no watch is registered, so the
watch dispatch at the end of `write` is a no-op. -/
structure Memory where
  romBank0 : Nat → Nat
  vram0 : Nat → Nat
  vram1 : Nat → Nat
  hram : List Nat
  wramBank0 : Nat → Nat
  wramBanks : Nat → Nat → Nat
  bgPalette : Nat → Nat
  spritePalette : Nat → Nat
  controller : Mbc3

def Memory._readHram (addr : Nat) (m : Memory) : Nat :=
  m.hram.getD (addr - 0xFF00) 0

def Memory._writeHram (addr data : Nat) (m : Memory) : Memory :=
  { m with hram := m.hram.set (addr - 0xFF00) data }

/-- `this._romBank0[VBK] & 0x1` (note the source reads the bank-select
bit out of ROM, not out of hram). -/
def Memory._getVramBank (m : Memory) : Nat :=
  m.romBank0 VBK % 2

def Memory._writeVram (addr data : Nat) (m : Memory) : Memory :=
  if m._getVramBank = 0 then { m with vram0 := updFn m.vram0 (addr - 0x8000) data }
  else { m with vram1 := updFn m.vram1 (addr - 0x8000) data }

def Memory._readVram (addr : Nat) (m : Memory) : Nat :=
  if m._getVramBank = 0 then m.vram0 (addr - 0x8000) else m.vram1 (addr - 0x8000)

def Memory.readVram0 (addr : Nat) (m : Memory) : Nat := m.vram0 addr

def Memory.readVram1 (addr : Nat) (m : Memory) : Nat := m.vram1 addr

/-- `svbk = hram[SVBK] & 0x7`; bank 0 is treated as bank 1. -/
def Memory._wramBankIndex (m : Memory) : Nat :=
  let svbk := m._readHram SVBK % 8
  if svbk = 0 then 1 else svbk

def Memory._writeWram (addr data : Nat) (m : Memory) : Memory :=
  { m with wramBanks := fun b i =>
      if b = m._wramBankIndex ∧ i = addr - 0xD000 then data else m.wramBanks b i }

def Memory._readWram (addr : Nat) (m : Memory) : Nat :=
  m.wramBanks m._wramBankIndex (addr - 0xD000)

/-- `palette[_romBank0[indexReg] & 0x3F]`. -/
def Memory._readPaletteData (indexReg : Nat) (palette : Nat → Nat) (m : Memory) : Nat :=
  palette (m.romBank0 indexReg % 0x40)

def Memory._readBgpd (m : Memory) : Nat := m._readPaletteData BGPI m.bgPalette

def Memory._readObpd (m : Memory) : Nat := m._readPaletteData OBPI m.spritePalette

/-- Write at the (unmasked) palette index; if bit 7 of the index
register is set (`≥ 0x80` for the byte-valued `Uint8Array` entry),
auto-increment the index register, wrapping mod 256. -/
def Memory._writeBgpd (val : Nat) (m : Memory) : Memory :=
  let paletteIndex := m.romBank0 BGPI
  let m := { m with bgPalette := updFn m.bgPalette paletteIndex val }
  if 0x80 ≤ m.romBank0 BGPI then
    { m with romBank0 := updFn m.romBank0 BGPI ((m.romBank0 BGPI + 1) % 0x100) }
  else m

def Memory._writeObpd (val : Nat) (m : Memory) : Memory :=
  let paletteIndex := m.romBank0 OBPI
  let m := { m with spritePalette := updFn m.spritePalette paletteIndex val }
  if 0x80 ≤ m.romBank0 OBPI then
    { m with romBank0 := updFn m.romBank0 OBPI ((m.romBank0 OBPI + 1) % 0x100) }
  else m

/-- `Memory.write(addr, data)`, mirroring the range dispatch of the
source line by line.  `if (data >> 8) throw` is the guard `0x100 ≤ data`
(the shifted value is truthy exactly when `data ≥ 0x100`). Every
`.error` is produced before any state is modified, as in the source. -/
def Memory.write (addr data : Nat) (m : Memory) : Except EmErr Memory :=
  if 0x100 ≤ data then .error (.writeTooBig data)
  else if addr < 0x2000 then .ok { m with controller := m.controller.enableRam data }
  else if addr < 0x4000 then .ok { m with controller := m.controller.selectRomBank data }
  else if addr < 0x6000 then
    match m.controller.selectRamBank data with
    | .error e => .error e
    | .ok c => .ok { m with controller := c }
  else if addr < 0x8000 then .ok { m with controller := m.controller.latchClockData data }
  else if addr < 0xA000 then .ok (m._writeVram addr data)
  else if 0xC000 ≤ addr ∧ addr < 0xD000 then
    .ok { m with wramBank0 := updFn m.wramBank0 (addr - 0xC000) data }
  else if 0xD000 ≤ addr ∧ addr < 0xE000 then .ok (m._writeWram addr data)
  else if 0xFF00 ≤ addr ∧ addr < 0x10000 then
    if addr = BGPD then .ok (m._writeBgpd data)
    else if addr = OBPD then .ok (m._writeObpd data)
    else if addr = SB ∨ addr = SC then .ok (m._writeHram addr data)
    else if addr = TIMA ∨ addr = TMA ∨ addr = DIV ∨ addr = TAC then
      .ok (m._writeHram addr data)
    else if addr = WX ∨ addr = WY then .ok (m._writeHram addr data)
    else if addr = LY then .ok (m._writeHram addr 0x0)
    else if addr = LCDC ∨ addr = STAT ∨ addr = SCX ∨ addr = SCY ∨ addr = LYC then
      .ok (m._writeHram addr data)
    else if addr = BGP ∨ addr = OBP0 ∨ addr = OBP1 then .ok (m._writeHram addr data)
    else if 0xFF80 ≤ addr then .ok (m._writeHram addr data)
    else .error (.unsupportedWrite data addr)
  else .error (.unsupportedWrite data addr)

/-- `Memory.read(addr)`, mirroring the range dispatch of the source. -/
def Memory.read (addr : Nat) (m : Memory) : Except EmErr Nat :=
  if addr < 0x4000 then .ok (m.romBank0 addr)
  else if addr < 0x8000 then .error (.readUnsupported addr)
  else if addr < 0xA000 then .ok (m._readVram addr)
  else if 0xC000 ≤ addr ∧ addr < 0xD000 then .ok (m.wramBank0 (addr - 0xC000))
  else if 0xD000 ≤ addr ∧ addr < 0xE000 then .ok (m._readWram addr)
  else if 0xFF00 ≤ addr ∧ addr < 0x10000 then
    if addr = OBPD then .ok m._readObpd
    else if addr = BGPD then .ok m._readBgpd
    else if addr = LCDC ∨ addr = STAT ∨ addr = LY ∨ addr = LYC then
      .ok (m._readHram addr)
    else if addr = INTERRUPT_REQUEST_REG then .ok (m._readHram addr)
    else if addr = TIMA ∨ addr = TMA ∨ addr = DIV ∨ addr = TAC then
      .ok (m._readHram addr)
    else if addr = BGP ∨ addr = OBP0 ∨ addr = OBP1 then .ok (m._readHram addr)
    else if 0xFF80 ≤ addr then .ok (m._readHram addr)
    else .error (.readUnsupported addr)
  else .error (.readUnsupported addr)

/-! Interrupt plumbing (src/Memory.ts). -/

inductive InterruptName where
  | vBlank
  | lcdStat
  | timer
  | serial
  | joypad
deriving DecidableEq

def INTERRUPT_NAMES : List InterruptName :=
  [.vBlank, .lcdStat, .timer, .serial, .joypad]

def getMaskFromInterrupt : InterruptName → Nat
  | .vBlank => 0x1
  | .lcdStat => 0x2
  | .timer => 0x4
  | .serial => 0x8
  | .joypad => 0x10

def getVectorFromInterrupt : InterruptName → Nat
  | .vBlank => 0x40
  | .lcdStat => 0x48
  | .timer => 0x50
  | .serial => 0x58
  | .joypad => 0x60

structure Interrupt where
  name : InterruptName
  vector : Nat
  requested : Bool
  enabled : Bool
deriving DecidableEq

def Memory._getInterrupt (name : InterruptName) (requestReg enableReg : Nat) : Interrupt :=
  { name, vector := getVectorFromInterrupt name,
    requested := (requestReg &&& getMaskFromInterrupt name) != 0,
    enabled := (enableReg &&& getMaskFromInterrupt name) != 0 }

/-- `getInterruptInfo()`, returned as the priority-ordered list in which
`Cpu._processInterrupts` consumes the record's fields. -/
def Memory.getInterruptInfo (m : Memory) : Except EmErr (List Interrupt) := do
  let enableReg ← Memory.read INTERRUPT_ENABLE_REG m
  let requestReg ← Memory.read INTERRUPT_REQUEST_REG m
  pure (INTERRUPT_NAMES.map fun n => Memory._getInterrupt n requestReg enableReg)

/-- `reg & ~mask` clears only the mask bit; the request register holds a
byte, on which `& ~mask` coincides with `&&& (0xFF ^^^ mask)`. -/
def Memory.unrequestInterrupt (i : InterruptName) (m : Memory) : Except EmErr Memory := do
  let reg ← Memory.read INTERRUPT_REQUEST_REG m
  Memory.write INTERRUPT_REQUEST_REG (reg &&& (0xFF ^^^ getMaskFromInterrupt i)) m

def Memory.requestInterrupt (i : InterruptName) (m : Memory) : Except EmErr Memory := do
  let reg ← Memory.read INTERRUPT_REQUEST_REG m
  Memory.write INTERRUPT_REQUEST_REG (reg ||| getMaskFromInterrupt i) m

/-- `_initialize()`: the power-on values written (via `_writeHram`)
into the I/O block. -/
def Memory._initialize (m : Memory) : Memory :=
  m |> Memory._writeHram TIMA 0x00 |> Memory._writeHram TMA 0x00
    |> Memory._writeHram TAC 0x00 |> Memory._writeHram NR10 0x80
    |> Memory._writeHram NR11 0xBF |> Memory._writeHram NR12 0xF3
    |> Memory._writeHram NR14 0xBF |> Memory._writeHram NR21 0x3F
    |> Memory._writeHram NR22 0x00 |> Memory._writeHram NR24 0xBF
    |> Memory._writeHram NR30 0x7F |> Memory._writeHram NR31 0xFF
    |> Memory._writeHram NR32 0x9F |> Memory._writeHram NR33 0xBF
    |> Memory._writeHram NR41 0xFF |> Memory._writeHram NR42 0x00
    |> Memory._writeHram NR43 0x00 |> Memory._writeHram NR44 0xBF
    |> Memory._writeHram NR50 0x77 |> Memory._writeHram NR51 0xF3
    |> Memory._writeHram NR52 0xF1 |> Memory._writeHram STAT 0x91
    |> Memory._writeHram SCY 0x00 |> Memory._writeHram SCX 0x00
    |> Memory._writeHram LYC 0x00 |> Memory._writeHram BGP 0xFC
    |> Memory._writeHram OBP0 0xFF |> Memory._writeHram OBP1 0xFF
    |> Memory._writeHram WY 0x00 |> Memory._writeHram WX 0x00
    |> Memory._writeHram IE 0x00

/-- The `Memory` constructor: fresh zeroed arrays, the first 0x4000
bytes of the cartridge image as the fixed ROM bank, an `Mbc3`
controller, and the `_initialize()` register values.  (The constructor
also self-schedules the divider/timer tick callbacks on the Clock; the
machine configurations modelled by the claims fix their own pending
event queues, as noted at each.) -/
def Memory.mk0 (rom : Nat → Nat) : Memory :=
  Memory._initialize
    { romBank0 := rom, vram0 := fun _ => 0, vram1 := fun _ => 0,
      hram := List.replicate 0x100 0, wramBank0 := fun _ => 0,
      wramBanks := fun _ _ => 0, bgPalette := fun _ => 0,
      spritePalette := fun _ => 0, controller := Mbc3.init }

/-- hram always holds exactly 0x100 bytes (true of every state built
from the constructor, since `List.set` preserves length). -/
def Memory.hramWF (m : Memory) : Prop := m.hram.length = 0x100

/-! ### RegisterStore (src/RegisterStore.ts)

`const [AF, BC, DE, HL, SP, PC] = [0, 1, 2, 3, 4, 5]` — the register
array is a six-field structure; `_regs[i]` access is `getReg`/`setReg`.
`LO_8 = 255` masks as `% 0x100`; `HI_8 = ~255` masks as `andHI8`
(clearing the low 8 bits — note this keeps the high byte SHIFTED, which
is exactly what the source computes). -/

inductive Reg where
  | AF
  | BC
  | DE
  | HL
  | SP
  | PC
deriving DecidableEq

/-- `x & HI_8` where `HI_8 = ~255`: clears the low 8 bits of `x`
(values in this development stay far below 2^31, where the JS 32-bit
signed `&` agrees). -/
def andHI8 (x : Nat) : Nat := x - x % 0x100

def ZERO_MASK : Nat := 0x80
def N_MASK : Nat := 0x40
def H_MASK : Nat := 0x20
def CARRY_MASK : Nat := 0x10

structure RegisterStore where
  af : Nat
  bc : Nat
  de : Nat
  hl : Nat
  sp : Nat
  pc : Nat
deriving DecidableEq

/-- Power-on register values from the constructor. -/
def RegisterStore.init : RegisterStore :=
  { af := 0x11B0, bc := 0x0013, de := 0x00D8, hl := 0x014D,
    sp := 0xFFFE, pc := 0x100 }

def RegisterStore.getReg (r : RegisterStore) : Reg → Nat
  | .AF => r.af
  | .BC => r.bc
  | .DE => r.de
  | .HL => r.hl
  | .SP => r.sp
  | .PC => r.pc

def RegisterStore.setReg (r : RegisterStore) : Reg → Nat → RegisterStore
  | .AF, v => { r with af := v }
  | .BC, v => { r with bc := v }
  | .DE, v => { r with de := v }
  | .HL, v => { r with hl := v }
  | .SP, v => { r with sp := v }
  | .PC, v => { r with pc := v }

/-- 16-bit increment: wraps `0x10000 → 0`. -/
def RegisterStore._incr (i : Reg) (r : RegisterStore) : RegisterStore :=
  let incr := r.getReg i + 1
  if incr = 0x10000 then r.setReg i 0 else r.setReg i incr

/-- 16-bit decrement: `decr === -0x1` wraps to `0xFFFF` (in `Nat`:
the value was 0). -/
def RegisterStore._decr (i : Reg) (r : RegisterStore) : RegisterStore :=
  if r.getReg i = 0 then r.setReg i 0xFFFF else r.setReg i (r.getReg i - 1)

def RegisterStore.getA (r : RegisterStore) : Nat := andHI8 r.af

def RegisterStore.getF (r : RegisterStore) : Nat := r.af % 0x100

def RegisterStore.getB (r : RegisterStore) : Nat := andHI8 r.bc

def RegisterStore.getC (r : RegisterStore) : Nat := r.bc % 0x100

def RegisterStore.getD (r : RegisterStore) : Nat := andHI8 r.de

def RegisterStore.getE (r : RegisterStore) : Nat := r.de % 0x100

def RegisterStore.getH (r : RegisterStore) : Nat := andHI8 r.hl

def RegisterStore.getL (r : RegisterStore) : Nat := r.hl % 0x100

def RegisterStore.getBc (r : RegisterStore) : Nat := r.bc

def RegisterStore.getPc (r : RegisterStore) : Nat := r.pc

def RegisterStore.getSp (r : RegisterStore) : Nat := r.sp

def RegisterStore.getDe (r : RegisterStore) : Nat := r.de

def RegisterStore.getHl (r : RegisterStore) : Nat := r.hl

def RegisterStore._setLo (byte : Nat) (i : Reg) (r : RegisterStore) : RegisterStore :=
  r.setReg i (andHI8 (r.getReg i) + byte)

def RegisterStore._setHi (byte : Nat) (i : Reg) (r : RegisterStore) : RegisterStore :=
  r.setReg i ((byte <<< 8) + r.getReg i % 0x100)

def RegisterStore.setPc (word : Nat) (r : RegisterStore) : RegisterStore :=
  r.setReg .PC word

def RegisterStore.setAf (word : Nat) (r : RegisterStore) : RegisterStore :=
  r.setReg .AF word

def RegisterStore.setBc (word : Nat) (r : RegisterStore) : RegisterStore :=
  r.setReg .BC word

def RegisterStore.setDe (word : Nat) (r : RegisterStore) : RegisterStore :=
  r.setReg .DE word

def RegisterStore.setHl (word : Nat) (r : RegisterStore) : RegisterStore :=
  r.setReg .HL word

def RegisterStore.setSp (word : Nat) (r : RegisterStore) : RegisterStore :=
  r.setReg .SP word

def RegisterStore.setA (byte : Nat) (r : RegisterStore) : RegisterStore :=
  r._setHi byte .AF

def RegisterStore.setF (byte : Nat) (r : RegisterStore) : RegisterStore :=
  r._setLo byte .AF

def RegisterStore.setB (byte : Nat) (r : RegisterStore) : RegisterStore :=
  r._setHi byte .BC

def RegisterStore.setC (byte : Nat) (r : RegisterStore) : RegisterStore :=
  r._setLo byte .BC

def RegisterStore.setD (byte : Nat) (r : RegisterStore) : RegisterStore :=
  r._setHi byte .DE

def RegisterStore.setE (byte : Nat) (r : RegisterStore) : RegisterStore :=
  r._setLo byte .DE

def RegisterStore.setH (byte : Nat) (r : RegisterStore) : RegisterStore :=
  r._setHi byte .HL

def RegisterStore.setL (byte : Nat) (r : RegisterStore) : RegisterStore :=
  r._setLo byte .HL

/-- `_decr8(regIndex, hi)`; note the source stores `hi8 << 8` in the
low-half branches even though `hi8 = value & ~255` is already
shifted. -/
def RegisterStore._decr8 (i : Reg) (hi : Bool) (r : RegisterStore) : RegisterStore :=
  let flags := r.getF &&& CARRY_MASK
  let flags := flags ||| N_MASK
  let value := r.getReg i
  let lo8 := value % 0x100
  let hi8 := andHI8 value
  let base := if hi then hi8 else lo8
  -- `decr = base - 1; if (decr === -1) { flags |= H_MASK; decr = 0xFF; }`
  let (flags, decr) :=
    if base = 0 then (flags ||| H_MASK, 0xFF) else (flags, base - 1)
  let (flags, r) :=
    if decr = 0 then
      (flags ||| ZERO_MASK, r.setReg i (if hi then lo8 else hi8 <<< 8))
    else
      (flags, r.setReg i (if hi then (decr <<< 8) + lo8 else (hi8 <<< 8) + decr))
  r.setF flags

/-- `_incr8(regIndex, hi)` (same double-shift quirk as `_decr8`). -/
def RegisterStore._incr8 (i : Reg) (hi : Bool) (r : RegisterStore) : RegisterStore :=
  let flags := r.getF &&& CARRY_MASK
  let value := r.getReg i
  let lo8 := value % 0x100
  let hi8 := andHI8 value
  let incr := (if hi then hi8 else lo8) + 1
  let flags := if incr = 0x10 then flags ||| H_MASK else flags
  if incr = 256 then
    ((r.setReg i (if hi then lo8 else hi8 <<< 8)).setF (flags ||| ZERO_MASK))
  else
    ((r.setReg i (if hi then (incr <<< 8) + lo8 else (hi8 <<< 8) + incr)).setF flags)

def RegisterStore._incrLo (i : Reg) (r : RegisterStore) : RegisterStore := r._incr8 i false

def RegisterStore._incrHi (i : Reg) (r : RegisterStore) : RegisterStore := r._incr8 i true

def RegisterStore._decrLo (i : Reg) (r : RegisterStore) : RegisterStore := r._decr8 i false

def RegisterStore._decrHi (i : Reg) (r : RegisterStore) : RegisterStore := r._decr8 i true

/-- `add(val)`: returns the sum (the caller stores it into A) and the
store with the flag register updated. -/
def RegisterStore.add (val : Nat) (r : RegisterStore) : Nat × RegisterStore :=
  let flags := 0x0
  let rawSum := r.getA + val
  let flags := if 0xFF < rawSum then flags ||| CARRY_MASK else flags
  let sum := rawSum % 0x100
  let flags := if sum = 0 then flags ||| ZERO_MASK else flags
  -- `Boolean(((this.getA() & 0xF) + (val & 0xF)) & 0x10)`
  let flags :=
    if (r.getA % 16 + val % 16) &&& 0x10 ≠ 0 then flags ||| H_MASK else flags
  (sum, r.setF flags)

/-- `sub(val)`: `difference = A - val`, with `+ 0x100` on borrow. -/
def RegisterStore.sub (val : Nat) (r : RegisterStore) : Nat × RegisterStore :=
  let flags := N_MASK
  let a := r.getA
  let (flags, difference) :=
    if a < val then (flags ||| CARRY_MASK, a + 0x100 - val) else (flags, a - val)
  let flags := if difference = 0 then flags ||| ZERO_MASK else flags
  -- `(a & 0xF) - (val & 0xF) < 0`
  let flags := if a % 16 < val % 16 then flags ||| H_MASK else flags
  (difference, r.setF flags)

/-- `cp(value)` performs `sub` and discards the result. -/
def RegisterStore.cp (val : Nat) (r : RegisterStore) : RegisterStore :=
  (r.sub val).2

def RegisterStore.and (val : Nat) (r : RegisterStore) : Nat × RegisterStore :=
  let a := r.getA &&& val
  let flags := H_MASK
  let flags := if a = 0 then flags ||| ZERO_MASK else flags
  (a, r.setF flags)

def RegisterStore.xor (val : Nat) (r : RegisterStore) : Nat × RegisterStore :=
  let flags := 0x0
  let x := val ^^^ r.getA
  let flags := if x = 0 then flags ||| ZERO_MASK else flags
  (x, r.setF flags)

def RegisterStore.cpB (r : RegisterStore) : RegisterStore := r.cp r.getB

def RegisterStore.decrH (r : RegisterStore) : RegisterStore := r._decrHi .HL

def RegisterStore.incrA (r : RegisterStore) : RegisterStore := r._incrHi .AF

def RegisterStore.incrD (r : RegisterStore) : RegisterStore := r._incrHi .DE

def RegisterStore.incrH (r : RegisterStore) : RegisterStore := r._incrHi .HL

def RegisterStore.incrBc (r : RegisterStore) : RegisterStore := r._incr .BC

def RegisterStore.incrHl (r : RegisterStore) : RegisterStore := r._incr .HL

def RegisterStore.incrPc (r : RegisterStore) : RegisterStore := r._incr .PC

def RegisterStore.incrSp (r : RegisterStore) : RegisterStore := r._incr .SP

def RegisterStore.decrSp (r : RegisterStore) : RegisterStore := r._decr .SP

structure FlagInfo where
  zero : Bool
  carry : Bool
  n : Bool
  h : Bool

def RegisterStore.getFlagInfo (r : RegisterStore) : FlagInfo :=
  let flags := r.getF
  { zero := (flags &&& ZERO_MASK) != 0, carry := (flags &&& CARRY_MASK) != 0,
    n := (flags &&& N_MASK) != 0, h := (flags &&& H_MASK) != 0 }

/-- `_push(regIndex)`: decrement SP, write `value & HI_8` (the high
byte, still shifted), decrement SP, write `value & LO_8`. -/
def RegisterStore._push (i : Reg) (r : RegisterStore) (m : Memory) :
    Except EmErr (RegisterStore × Memory) := do
  let value := r.getReg i
  let r := r.decrSp
  let m ← Memory.write r.getSp (andHI8 value) m
  let r := r.decrSp
  let m ← Memory.write r.getSp (value % 0x100) m
  pure (r, m)

/-- `_pop(regIndex)`: read low byte at SP, increment, read high byte,
increment, store `(hi << 8) + lo`. -/
def RegisterStore._pop (i : Reg) (r : RegisterStore) (m : Memory) :
    Except EmErr (RegisterStore × Memory) := do
  let lo ← Memory.read r.getSp m
  let r := r.incrSp
  let hi ← Memory.read r.getSp m
  let r := r.incrSp
  pure (r.setReg i ((hi <<< 8) + lo), m)

def RegisterStore.popAf (r : RegisterStore) (m : Memory) :
    Except EmErr (RegisterStore × Memory) := RegisterStore._pop .AF r m

def RegisterStore.popBc (r : RegisterStore) (m : Memory) :
    Except EmErr (RegisterStore × Memory) := RegisterStore._pop .BC r m

def RegisterStore.popDe (r : RegisterStore) (m : Memory) :
    Except EmErr (RegisterStore × Memory) := RegisterStore._pop .DE r m

def RegisterStore.popHl (r : RegisterStore) (m : Memory) :
    Except EmErr (RegisterStore × Memory) := RegisterStore._pop .HL r m

def RegisterStore.popPc (r : RegisterStore) (m : Memory) :
    Except EmErr (RegisterStore × Memory) := RegisterStore._pop .PC r m

def RegisterStore.pushBc (r : RegisterStore) (m : Memory) :
    Except EmErr (RegisterStore × Memory) := RegisterStore._push .BC r m

def RegisterStore.pushDe (r : RegisterStore) (m : Memory) :
    Except EmErr (RegisterStore × Memory) := RegisterStore._push .DE r m

def RegisterStore.pushHl (r : RegisterStore) (m : Memory) :
    Except EmErr (RegisterStore × Memory) := RegisterStore._push .HL r m

def RegisterStore.pushPc (r : RegisterStore) (m : Memory) :
    Except EmErr (RegisterStore × Memory) := RegisterStore._push .PC r m

/-! ### Cpu (src/Cpu.ts) -/

def CLOCK_SPEED : Nat := 4194304

/-- Cpu-visible machine state: the register store, memory, the IME flag
and the Clock's current time. -/
structure Machine where
  regs : RegisterStore
  mem : Memory
  ime : Bool
  time : Nat

/-- `Clock.advance(duration)` as invoked from `Cpu`: the machine
configurations modelled by the claims below carry an empty pending
event queue, on which the advance loop (cf. `advanceLoop`: `pop`
returns null immediately) just sets `time := time + duration`. -/
def Machine.clockAdvance (d : Nat) (c : Machine) : Machine :=
  { c with time := c.time + d }

/-- An instruction descriptor.  `execute` takes the already-fetched
immediate operand (`0` for one-byte instructions, whose executors
ignore it — the source passes `undefined`) and the machine, returning
the mutated machine and the cycle duration. -/
structure Opcode where
  mnemonic : String
  size : Nat
  execute : Nat → Machine → Except EmErr (Machine × Nat)

def u8ToI8 (u8 : Nat) : Int :=
  if 127 < u8 then (u8 : Int) - 256 else (u8 : Int)

def getRelativeOffset (offset : Nat) : Int :=
  if 0x80 ≤ offset then (offset : Int) - 0x100 else (offset : Int)

/-- `_call(addr)`: push PC, then assign PC. -/
def Cpu._call (addr : Nat) (c : Machine) : Except EmErr Machine := do
  let (r, m) ← RegisterStore.pushPc c.regs c.mem
  pure { c with regs := r.setPc addr, mem := m }

/-- `_return()`: pop into PC. -/
def Cpu._return (c : Machine) : Except EmErr Machine := do
  let (r, m) ← RegisterStore.popPc c.regs c.mem
  pure { c with regs := r, mem := m }

/-- The primary opcode table (`Cpu._getOpcode`), one case per `case` of
the source switch; the default case throws the decode error carrying
the opcode byte and `this._regs.getPc()`.  (A JR target computed from a
negative offset would be a negative JS number; `Int.toNat` truncation
only differs where the source would crash on the following fetch.) -/
def Cpu._getOpcode (c : Machine) (opcode : Nat) : Except EmErr Opcode :=
  match opcode with
  | 0x0 => .ok {
      mnemonic := "NOP", size := 1,
      execute := fun _ m => .ok (m, 4) }
  | 0x1 => .ok {
      mnemonic := "LD BC,d16", size := 3,
      execute := fun arg m => .ok ({ m with regs := m.regs.setBc arg }, 12) }
  | 0x2 => .ok {
      mnemonic := "LD (BC),A", size := 1,
      execute := fun _ m => do
        let v ← Memory.read m.regs.getBc m.mem
        pure ({ m with regs := m.regs.setA v }, 8) }
  | 0x3 => .ok {
      mnemonic := "INC BC", size := 1,
      execute := fun _ m => .ok ({ m with regs := m.regs.incrBc }, 4) }
  | 0x6 => .ok {
      mnemonic := "LD B,d8", size := 2,
      execute := fun arg m => .ok ({ m with regs := m.regs.setB arg }, 8) }
  | 0x11 => .ok {
      mnemonic := "LD DE,d16", size := 3,
      execute := fun arg m => .ok ({ m with regs := m.regs.setDe arg }, 12) }
  | 0x14 => .ok {
      mnemonic := "INC D", size := 1,
      execute := fun _ m => .ok ({ m with regs := m.regs.incrD }, 4) }
  | 0x16 => .ok {
      mnemonic := "LD D,d8", size := 2,
      execute := fun arg m => .ok ({ m with regs := m.regs.setD arg }, 8) }
  | 0x18 => .ok {
      mnemonic := "JR r8", size := 2,
      execute := fun arg m =>
        let pc := m.regs.getPc
        let offset := getRelativeOffset arg
        .ok ({ m with regs := m.regs.setPc ((pc + offset).toNat) }, 12) }
  | 0x1A => .ok {
      mnemonic := "LD A,(DE)", size := 1,
      execute := fun _ m => do
        let v ← Memory.read m.regs.getDe m.mem
        pure ({ m with regs := m.regs.setA v }, 8) }
  | 0x20 => .ok {
      mnemonic := "JR NZ,r8", size := 2,
      execute := fun arg m =>
        if m.regs.getFlagInfo.zero then .ok (m, 8)
        else
          let offset := getRelativeOffset arg
          .ok ({ m with regs := m.regs.setPc ((m.regs.getPc + offset).toNat) }, 12) }
  | 0x21 => .ok {
      mnemonic := "LD HL,d16", size := 3,
      execute := fun arg m => .ok ({ m with regs := m.regs.setHl arg }, 12) }
  | 0x22 => .ok {
      mnemonic := "LD (HL+),A", size := 1,
      execute := fun _ m => do
        let mem ← Memory.write m.regs.getHl m.regs.getA m.mem
        pure ({ m with mem := mem, regs := m.regs.incrHl }, 8) }
  | 0x23 => .ok {
      mnemonic := "INC HL", size := 1,
      execute := fun _ m => .ok ({ m with regs := m.regs.incrHl }, 8) }
  | 0x24 => .ok {
      mnemonic := "INC H", size := 1,
      execute := fun _ m => .ok ({ m with regs := m.regs.incrH }, 4) }
  | 0x25 => .ok {
      mnemonic := "DEC H", size := 1,
      execute := fun _ m => .ok ({ m with regs := m.regs.decrH }, 4) }
  | 0x26 => .ok {
      mnemonic := "LD H,d8", size := 2,
      execute := fun arg m => .ok ({ m with regs := m.regs.setH arg }, 8) }
  | 0x28 => .ok {
      mnemonic := "JR Z,r8", size := 2,
      execute := fun arg m =>
        if m.regs.getFlagInfo.zero then
          .ok ({ m with regs := m.regs.setPc ((m.regs.getPc + u8ToI8 arg).toNat) }, 12)
        else .ok (m, 8) }
  | 0x31 => .ok {
      mnemonic := "LD SP,d16", size := 3,
      execute := fun arg m => .ok ({ m with regs := m.regs.setSp arg }, 12) }
  | 0x36 => .ok {
      mnemonic := "LD (HL),d8", size := 2,
      execute := fun arg m => do
        let mem ← Memory.write m.regs.getHl arg m.mem
        pure ({ m with mem := mem }, 12) }
  | 0x3C => .ok {
      mnemonic := "INC A", size := 1,
      execute := fun _ m => .ok ({ m with regs := m.regs.incrA }, 4) }
  | 0x3E => .ok {
      mnemonic := "LD A,d8", size := 2,
      execute := fun arg m => .ok ({ m with regs := m.regs.setA arg }, 8) }
  | 0x42 => .ok {
      mnemonic := "LD B,D", size := 1,
      execute := fun _ m => .ok ({ m with regs := m.regs.setB m.regs.getD }, 4) }
  | 0x43 => .ok {
      mnemonic := "LD B,E", size := 1,
      execute := fun _ m => .ok ({ m with regs := m.regs.setB m.regs.getE }, 4) }
  | 0x80 => .ok {
      mnemonic := "ADD A,B", size := 1,
      execute := fun _ m =>
        let p := m.regs.add m.regs.getB
        .ok ({ m with regs := p.2.setA p.1 }, 4) }
  | 0x81 => .ok {
      mnemonic := "ADD A,C", size := 1,
      execute := fun _ m =>
        let p := m.regs.add m.regs.getC
        .ok ({ m with regs := p.2.setA p.1 }, 4) }
  | 0x82 => .ok {
      mnemonic := "ADD A,D", size := 1,
      execute := fun _ m =>
        let p := m.regs.add m.regs.getD
        .ok ({ m with regs := p.2.setA p.1 }, 4) }
  | 0x83 => .ok {
      mnemonic := "ADD A,E", size := 1,
      execute := fun _ m =>
        let p := m.regs.add m.regs.getE
        .ok ({ m with regs := p.2.setA p.1 }, 4) }
  | 0x84 => .ok {
      mnemonic := "ADD A,H", size := 1,
      execute := fun _ m =>
        let p := m.regs.add m.regs.getH
        .ok ({ m with regs := p.2.setA p.1 }, 4) }
  | 0x85 => .ok {
      mnemonic := "ADD A,L", size := 1,
      execute := fun _ m =>
        let p := m.regs.add m.regs.getL
        .ok ({ m with regs := p.2.setA p.1 }, 4) }
  | 0x86 => .ok {
      mnemonic := "ADD A,(HL)", size := 1,
      execute := fun _ m => do
        let v ← Memory.read m.regs.getHl m.mem
        let p := m.regs.add v
        pure ({ m with regs := p.2.setA p.1 }, 8) }
  | 0x87 => .ok {
      mnemonic := "ADD A,A", size := 1,
      execute := fun _ m =>
        let p := m.regs.add m.regs.getA
        .ok ({ m with regs := p.2.setA p.1 }, 4) }
  | 0xA0 => .ok {
      mnemonic := "AND B", size := 1,
      execute := fun _ m =>
        let p := m.regs.and m.regs.getB
        .ok ({ m with regs := p.2.setA p.1 }, 4) }
  | 0xA9 => .ok {
      mnemonic := "XOR C", size := 1,
      execute := fun _ m =>
        let p := m.regs.xor m.regs.getC
        .ok ({ m with regs := p.2.setA p.1 }, 4) }
  | 0xAA => .ok {
      mnemonic := "XOR D", size := 1,
      execute := fun _ m =>
        let p := m.regs.xor m.regs.getD
        .ok ({ m with regs := p.2.setA p.1 }, 4) }
  | 0xAB => .ok {
      mnemonic := "XOR E", size := 1,
      execute := fun _ m =>
        let p := m.regs.xor m.regs.getE
        .ok ({ m with regs := p.2.setA p.1 }, 4) }
  | 0xAC => .ok {
      mnemonic := "XOR H", size := 1,
      execute := fun _ m =>
        let p := m.regs.xor m.regs.getH
        .ok ({ m with regs := p.2.setA p.1 }, 4) }
  | 0xAD => .ok {
      mnemonic := "XOR L", size := 1,
      execute := fun _ m =>
        let p := m.regs.xor m.regs.getL
        .ok ({ m with regs := p.2.setA p.1 }, 4) }
  | 0xAE => .ok {
      mnemonic := "XOR (HL)", size := 1,
      execute := fun _ m => do
        let v ← Memory.read m.regs.getHl m.mem
        let p := m.regs.xor v
        pure ({ m with regs := p.2.setA p.1 }, 8) }
  | 0xAF => .ok {
      mnemonic := "XOR A", size := 1,
      execute := fun _ m =>
        let p := m.regs.xor m.regs.getA
        .ok ({ m with regs := p.2.setA p.1 }, 4) }
  | 0xB8 => .ok {
      mnemonic := "CP B", size := 1,
      execute := fun _ m => .ok ({ m with regs := m.regs.cpB }, 4) }
  | 0xC1 => .ok {
      mnemonic := "POP BC", size := 1,
      execute := fun _ m => do
        let (r, mem) ← RegisterStore.popBc m.regs m.mem
        pure ({ m with regs := r, mem := mem }, 12) }
  | 0xC3 => .ok {
      mnemonic := "JP a16", size := 3,
      execute := fun arg m => .ok ({ m with regs := m.regs.setPc arg }, 16) }
  | 0xC5 => .ok {
      mnemonic := "PUSH BC", size := 1,
      execute := fun _ m => do
        let (r, mem) ← RegisterStore.pushBc m.regs m.mem
        pure ({ m with regs := r, mem := mem }, 16) }
  | 0xCD => .ok {
      mnemonic := "CALL a16", size := 3,
      execute := fun arg m => do
        let m ← Cpu._call arg m
        pure (m, 24) }
  | 0xCF => .ok {
      mnemonic := "RST 08H", size := 1,
      execute := fun _ m => do
        let m ← Cpu._call 0x08 m
        pure (m, 16) }
  | 0xD0 => .ok {
      mnemonic := "RET NC", size := 1,
      execute := fun _ m =>
        if m.regs.getFlagInfo.carry then .ok (m, 8)
        else do
          let m ← Cpu._return m
          pure (m, 20) }
  | 0xD1 => .ok {
      mnemonic := "POP DE", size := 1,
      execute := fun _ m => do
        let (r, mem) ← RegisterStore.popDe m.regs m.mem
        pure ({ m with regs := r, mem := mem }, 12) }
  | 0xD5 => .ok {
      mnemonic := "PUSH DE", size := 1,
      execute := fun _ m => do
        let (r, mem) ← RegisterStore.pushDe m.regs m.mem
        pure ({ m with regs := r, mem := mem }, 16) }
  | 0xD9 => .ok {
      mnemonic := "RETI", size := 1,
      execute := fun _ m => do
        let m ← Cpu._return { m with ime := true }
        pure (m, 16) }
  | 0xE0 => .ok {
      mnemonic := "LDH (a8),A", size := 2,
      execute := fun arg m => do
        let mem ← Memory.write (arg + 0xFF00) m.regs.getA m.mem
        pure ({ m with mem := mem }, 12) }
  | 0xE1 => .ok {
      mnemonic := "POP HL", size := 1,
      execute := fun _ m => do
        let (r, mem) ← RegisterStore.popHl m.regs m.mem
        pure ({ m with regs := r, mem := mem }, 12) }
  | 0xE5 => .ok {
      mnemonic := "PUSH HL", size := 1,
      execute := fun _ m => do
        let (r, mem) ← RegisterStore.pushHl m.regs m.mem
        pure ({ m with regs := r, mem := mem }, 16) }
  | 0xEA => .ok {
      mnemonic := "LD (a16),A", size := 3,
      execute := fun arg m => do
        let mem ← Memory.write arg m.regs.getA m.mem
        pure ({ m with mem := mem }, 16) }
  | 0xF0 => .ok {
      mnemonic := "LDH A,(a8)", size := 2,
      execute := fun arg m => do
        let v ← Memory.read (0xFF00 + arg) m.mem
        pure ({ m with regs := m.regs.setA v }, 12) }
  | 0xF1 => .ok {
      mnemonic := "POP AF", size := 1,
      execute := fun _ m => do
        let (r, mem) ← RegisterStore.popAf m.regs m.mem
        pure ({ m with regs := r, mem := mem }, 12) }
  | 0xFA => .ok {
      mnemonic := "LD A,(a16)", size := 3,
      execute := fun arg m => do
        let v ← Memory.read arg m.mem
        pure ({ m with regs := m.regs.setA v }, 16) }
  | 0xFE => .ok {
      mnemonic := "CP d8", size := 2,
      execute := fun arg m => .ok ({ m with regs := m.regs.cp arg }, 8) }
  | 0xFF => .ok {
      mnemonic := "RST 38H", size := 1,
      execute := fun _ m => do
        let m ← Cpu._call 0x38 m
        pure (m, 16) }
  | op => .error (.unimplInstr op c.regs.getPc)

/-- `_executeOpcode`: fetch 0/1/2 immediate bytes per the size
(little-endian, and — as in the source — `pc + 2` is read before
`pc + 1`) and invoke the executor. -/
def Cpu._executeOpcode (execute : Nat → Machine → Except EmErr (Machine × Nat))
    (size pc opcode : Nat) (c : Machine) : Except EmErr (Machine × Nat) :=
  match size with
  | 1 => execute 0 c
  | 2 => do
    let a ← Memory.read (pc + 1) c.mem
    execute a c
  | 3 => do
    let hi ← Memory.read (pc + 2) c.mem
    let lo ← Memory.read (pc + 1) c.mem
    execute ((hi <<< 8) + lo) c
  | _ => .error (.invalidSize size opcode)

/-- `_processInterrupt`: for a requested+enabled interrupt under IME,
clear IME, clear the request bit, then "manually" run the `CALL`
executor on `interrupt.vector << 8` and advance the clock by its
duration. -/
def Cpu._processInterrupt (c : Machine) (i : Interrupt) : Except EmErr Machine :=
  if c.ime && i.enabled && i.requested then do
    let c := { c with ime := false }
    let mem ← Memory.unrequestInterrupt i.name c.mem
    let c := { c with mem := mem }
    let op ← Cpu._getOpcode c 0xCD
    let (c, duration) ← op.execute (i.vector <<< 8) c
    pure (c.clockAdvance duration)
  else pure c

/-- `_processInterrupts`: fold `_processInterrupt` over the five
sources in priority order (the order `getInterruptInfo` returns). -/
def Cpu._processInterrupts (c : Machine) : Except EmErr Machine := do
  let infos ← Memory.getInterruptInfo c.mem
  infos.foldlM Cpu._processInterrupt c

/-- `Cpu.next()`: fetch, decode, execute, advance the clock by the
instruction duration, process interrupts, then `incrPc()` —
unconditionally, exactly once, by one. -/
def Cpu.next (c : Machine) : Except EmErr Machine := do
  let pc := c.regs.getPc
  let code ← Memory.read pc c.mem
  let op ← Cpu._getOpcode c code
  let (c, duration) ← Cpu._executeOpcode op.execute op.size pc code c
  let c := c.clockAdvance duration
  let c ← Cpu._processInterrupts c
  pure { c with regs := c.regs.incrPc }

/-- A freshly constructed machine over a given cartridge image:
initial registers, initialized memory, IME set, clock at 0. -/
def Machine.mk0 (rom : Nat → Nat) : Machine :=
  { regs := RegisterStore.init, mem := Memory.mk0 rom, ime := true, time := 0 }

/-! ### Display (src/Display.ts)

Only the register-visible part of the PPU state machine is embedded:
`_readLine()`/`_draw()` read VRAM/palettes and write the
Display-internal off-screen pixel buffers and the canvas, which no
Memory register observes. -/

inductive Mode where
  | hBlank
  | vBlank
  | searching
  | transferring
deriving DecidableEq

def SCREEN_X : Nat := 160
def SCREEN_Y : Nat := 144
def SEARCHING_TIME : Nat := 80
def HBLANK_TIME : Nat := 204
def VBLANK_TIME : Nat := 4560
def TRANSFERING_TIME : Nat := 172

def MODE_TO_BITS : Mode → Nat
  | .hBlank => 0
  | .vBlank => 1
  | .searching => 2
  | .transferring => 3

def STAT_COINCIDENCE_ENABLE_MASK : Nat := 0x40
def STAT_OAM_INTERRUPT_ENABLE_MASK : Nat := 0x20
def STAT_VBLANK_INTERRUPT_ENABLE_MASK : Nat := 0x10
def STAT_HBLANK_INTERRUPT_ENABLE_MASK : Nat := 0x8
def STAT_COINCIDENCE_FLAG_MASK : Nat := 0x4
def DISPLAY_ENABLE_MASK : Nat := 0x80

/-- `_setStatFlags(mode)`: clear the low 3 bits of STAT (`stat & ~0x7`
on a byte is `&&& 0xF8`), set the coincidence flag iff `LY === LYC`,
and install the 2-bit mode code. -/
def Display._setStatFlags (mode : Mode) (m : Memory) : Except EmErr Memory := do
  let stat ← Memory.read STAT m
  let newStat := stat &&& 0xF8
  let ly ← Memory.read LY m
  let lyc ← Memory.read LYC m
  let coincidence := if ly = lyc then STAT_COINCIDENCE_FLAG_MASK else 0x0
  let flags := coincidence + MODE_TO_BITS mode
  Memory.write STAT (newStat ||| flags) m

/-- `_requestInterrupt(mode)`: raise `lcdStat` when the coincidence
condition holds and is enabled, or the new mode's STAT enable bit is
set. -/
def Display._requestInterrupt (mode : Mode) (m : Memory) : Except EmErr Memory := do
  let stat ← Memory.read STAT m
  let coincidenceEnable := (stat &&& STAT_COINCIDENCE_ENABLE_MASK) != 0
  let coincidenceFlag := (stat &&& STAT_COINCIDENCE_FLAG_MASK) != 0
  let oamEnabled := (stat &&& STAT_OAM_INTERRUPT_ENABLE_MASK) != 0
  let vBlankEnabled := (stat &&& STAT_VBLANK_INTERRUPT_ENABLE_MASK) != 0
  let hBlankEnabled := (stat &&& STAT_HBLANK_INTERRUPT_ENABLE_MASK) != 0
  if coincidenceFlag && coincidenceEnable
      || (mode == .vBlank) && vBlankEnabled
      || (mode == .hBlank) && hBlankEnabled
      || (mode == .searching) && oamEnabled then
    Memory.requestInterrupt .lcdStat m
  else
    pure m

/-- `_handleMode(mode)`: returns the updated memory and the
`(fromNow, mode)` pairs passed to `Clock.schedule`.  The hBlank branch
captures `ly` before its (zero-forced) LY write and schedules
`handleMode(ly + 1 === SCREEN_Y ? vBlank : searching)`; the conditional
reads only the captured `ly`, so evaluating it at schedule time is
equivalent.  When the LCDC display-enable bit is clear the state
machine parks (the source also records `_displayEnabled = false`,
which only the LCDC write-observer consults). -/
def Display._handleMode (mode : Mode) (m : Memory) :
    Except EmErr (Memory × List (Nat × Mode)) := do
  let lcdc ← Memory.read LCDC m
  if lcdc &&& DISPLAY_ENABLE_MASK = 0 then
    pure (m, [])
  else do
    let (m, evs) ← (match mode with
      | Mode.searching => do
        let m ← Memory.write LY 0 m
        pure (m, [(SEARCHING_TIME, Mode.transferring)])
      | Mode.transferring =>
        -- `_readLine()`: reads LCDC/VRAM/palettes, writes only the
        -- internal pixel buffer.
        pure (m, [(TRANSFERING_TIME, Mode.hBlank)])
      | Mode.hBlank => do
        let ly ← Memory.read LY m
        let m ← Memory.write LY (ly + 1) m
        pure (m, [(HBLANK_TIME, if ly + 1 = SCREEN_Y then Mode.vBlank else Mode.searching)])
      | Mode.vBlank => do
        -- `_draw()`: presents the frame buffer; no register effect.
        let m ← Memory.requestInterrupt .vBlank m
        pure (m, [(VBLANK_TIME, Mode.searching)]) :
      Except EmErr (Memory × List (Nat × Mode)))
    let m ← Display._setStatFlags mode m
    let m ← Display._requestInterrupt mode m
    pure (m, evs)

/-- Clock + Memory as the Display's event loop sees them. -/
structure DispSt where
  time : Nat
  mem : Memory
  pending : List (Sched Mode)

/-- One `Clock.advance(d)` call driving the Display callbacks (fuel 8
covers every advance appearing below, which fires at most one event). -/
def stepAdv (d : Nat) (s : DispSt) : Option DispSt :=
  match Clock.advance Display._handleMode 8 s.time d s.mem s.pending with
  | .ok T st p _ => some ⟨T, st, p⟩
  | _ => none

def shiftSched (c : Nat) (s : Sched α) : Sched α :=
  ⟨c + s.targetTime, s.callback⟩

/-- Shift every absolute time in a `RunOut` by `c`. -/
def RunOut.shift (c : Nat) : RunOut ε σ α → RunOut ε σ α
  | .ok T st p f => .ok (c + T) st (p.map (shiftSched c)) (f.map (c + ·))
  | .err e => .err e
  | .out => .out

def DispSt.shift (c : Nat) (s : DispSt) : DispSt :=
  ⟨c + s.time, s.mem, s.pending.map (shiftSched c)⟩

def romZero : Nat → Nat := fun _ => 0

/-- Memory for C6's premise: power-on state with the PPU enabled
(LCDC bit 7 set, as the claim requires). -/
def memDisp : Memory := (Memory.mk0 romZero)._writeHram LCDC 0x80

/-- The Display just after entering Searching with current-line 0
(what the Display constructor's `_handleMode('searching')` call
produces on `memDisp`), at clock time 0. -/
def dispStart : DispSt :=
  match Display._handleMode .searching memDisp with
  | .ok (m, evs) => ⟨0, m, evs.map (schedule 0)⟩
  | .error _ => ⟨0, memDisp, []⟩

/-- State after the first `advance(80)` (the Searching period). -/
def lineStart : DispSt := (stepAdv SEARCHING_TIME dispStart).getD dispStart

/-- Drive one full scanline from `lineStart`'s phase:
`advance(172)`, `advance(204)`, `advance(80)`. -/
def lineFun (s : DispSt) : Option DispSt :=
  ((stepAdv TRANSFERING_TIME s).bind (stepAdv HBLANK_TIME)).bind (stepAdv SEARCHING_TIME)

/-- `n` scanlines of the 80/172/204 driving pattern, starting from
`lineStart`. -/
def iterLines : Nat → Option DispSt
  | 0 => some lineStart
  | n + 1 => (iterLines n).bind lineFun

/-- State after `advance(172)` within a line (Transferring fired). -/
def lineMid1 : DispSt := (stepAdv TRANSFERING_TIME lineStart).getD lineStart

/-- State after the further `advance(204)` (HBlank fired). -/
def lineMid2 : DispSt := (stepAdv HBLANK_TIME lineMid1).getD lineStart

/-- Low 2 mode bits of the status register. -/
def DispSt.statBits (s : DispSt) : Nat := s.mem._readHram STAT &&& 3

def DispSt.lyVal (s : DispSt) : Nat := s.mem._readHram LY

/-- The vBlank bit of the interrupt request register. -/
def DispSt.vblankReq (s : DispSt) : Nat := s.mem._readHram INTERRUPT_REQUEST_REG &&& 1

/-! ### Helpers for stating results -/

def exceptErr : Except EmErr β → Option EmErr
  | .error e => some e
  | .ok _ => none

def machinePc : Except EmErr Machine → Option Nat
  | .ok c => some c.regs.pc
  | .error _ => none

def rmRegs : Except EmErr (RegisterStore × Memory) → Option RegisterStore
  | .ok (r, _) => some r
  | .error _ => none

/-! ### Spec-side reference definitions (for comparison only)

Modelled from the claims' words, NOT from the source: the reference
flag truth table of C5. -/

/-- Modelled from the claim (C5): Zero iff the 8-bit result byte is 0,
Carry iff unsigned overflow at bit 8, Half-carry iff overflow out of
the low nibble; Subtract cleared by add. -/
def specAddFlags (a b : Nat) : Nat :=
  (if (a + b) % 0x100 = 0 then ZERO_MASK else 0) +
  (if 0xFF < a + b then CARRY_MASK else 0) +
  (if 0xF < a % 16 + b % 16 then H_MASK else 0)

/-- Modelled from the claim (C5): Zero iff the result byte is 0, Carry
iff borrow at bit 8, Half-carry iff borrow at bit 4, Subtract set. -/
def specSubFlags (a b : Nat) : Nat :=
  N_MASK +
  (if a = b then ZERO_MASK else 0) +
  (if a < b then CARRY_MASK else 0) +
  (if a % 16 < b % 16 then H_MASK else 0)

/-! ### Concrete machine states used by individual claims -/

def memInit : Memory := Memory.mk0 romZero

/-- C1's premise state: NOP at PC=0x100, SP=0xFFFE, `vBlank` and
`timer` both requested (IF=0x05) and enabled (IE=0x05), IME set, empty
clock queue.  (IF cannot be set through `Memory.write` — see the C1
theorem — so the premise bits are placed in the backing store
directly.) -/
def machineC1 : Machine :=
  { Machine.mk0 romZero with
    mem := memInit._writeHram INTERRUPT_REQUEST_REG 0x05 |> Memory._writeHram IE 0x05 }

/-- A machine about to execute `JP a16` to 0x0200: bytes C3 00 02 at
PC=0x150, no interrupts enabled. -/
def romJP : Nat → Nat := fun a =>
  if a = 0x150 then 0xC3 else if a = 0x151 then 0x00 else
  if a = 0x152 then 0x02 else 0

def machineJP : Machine :=
  { Machine.mk0 romJP with regs := RegisterStore.init.setPc 0x150 }

/-- A machine about to execute `LD BC,d16` (bytes 01 34 12) at
PC=0x150. -/
def romLD : Nat → Nat := fun a =>
  if a = 0x150 then 0x01 else if a = 0x151 then 0x34 else
  if a = 0x152 then 0x12 else 0

def machineLD : Machine :=
  { Machine.mk0 romLD with regs := RegisterStore.init.setPc 0x150 }

/-- A machine with PC=0x50 (small enough that `pushPc` succeeds), used
to exhibit where the synthetic interrupt CALL actually sends PC. -/
def machinePC50 : Machine :=
  { Machine.mk0 romZero with regs := RegisterStore.init.setPc 0x50 }

/-- Register store with accumulator byte 1 (`AF = 0x0100`): A = 1,
flags clear. -/
def regsA1 : RegisterStore := { RegisterStore.init with af := 0x0100 }

/-- The LY write performed by the Display's hBlank handler
(src/Display.ts lines 75–76): read LY, write `ly + 1` back. -/
def Display._hblankLyWrite (m : Memory) : Except EmErr Memory := do
  let ly ← Memory.read LY m
  Memory.write LY (ly + 1) m

/-! ### Recognized-range predicates and the supported instruction set
(stated independently of the dispatch code, for C9) -/

/-- Addresses `Memory.write` accepts (C9): the cartridge/VRAM ranges,
work RAM, and — within the I/O block — the explicitly handled registers
plus high RAM. -/
def writeRecognized (addr : Nat) : Prop :=
  addr < 0xA000 ∨ (0xC000 ≤ addr ∧ addr < 0xE000) ∨
    (0xFF00 ≤ addr ∧ addr < 0x10000 ∧
      (addr ∈ ([BGPD, OBPD, SB, SC, TIMA, TMA, DIV, TAC, WX, WY, LY, LCDC,
                STAT, SCX, SCY, LYC, BGP, OBP0, OBP1] : List Nat) ∨ 0xFF80 ≤ addr))

/-- Addresses `Memory.read` accepts (C9). -/
def readRecognized (addr : Nat) : Prop :=
  addr < 0x4000 ∨ (0x8000 ≤ addr ∧ addr < 0xA000) ∨
    (0xC000 ≤ addr ∧ addr < 0xE000) ∨
    (0xFF00 ≤ addr ∧ addr < 0x10000 ∧
      (addr ∈ ([OBPD, BGPD, LCDC, STAT, LY, LYC, INTERRUPT_REQUEST_REG, TIMA,
                TMA, DIV, TAC, BGP, OBP0, OBP1] : List Nat) ∨ 0xFF80 ≤ addr))

/-- The opcode bytes `Cpu._getOpcode` implements. -/
def supportedOpcodes : List Nat :=
  [0x0, 0x1, 0x2, 0x3, 0x6, 0x11, 0x14, 0x16, 0x18, 0x1A, 0x20, 0x21, 0x22,
   0x23, 0x24, 0x25, 0x26, 0x28, 0x31, 0x36, 0x3C, 0x3E, 0x42, 0x43,
   0x80, 0x81, 0x82, 0x83, 0x84, 0x85, 0x86, 0x87,
   0xA0, 0xA9, 0xAA, 0xAB, 0xAC, 0xAD, 0xAE, 0xAF, 0xB8,
   0xC1, 0xC3, 0xC5, 0xCD, 0xCF, 0xD0, 0xD1, 0xD5, 0xD9,
   0xE0, 0xE1, 0xE5, 0xEA, 0xF0, 0xF1, 0xFA, 0xFE, 0xFF]

/-! ## Theorems -/

theorem popMin_eq_none {l : List (Sched α)} (h : popMin l = none) : l = [] := by
  cases l with
  | nil => rfl
  | cons x xs =>
    rcases hx : popMin xs with _ | ⟨m, rest⟩
    · simp [popMin, hx] at h
    · by_cases hc : x.targetTime ≤ m.targetTime <;> simp [popMin, hx, hc] at h

theorem popMin_min {l : List (Sched α)} {s : Sched α} {rest : List (Sched α)}
    (h : popMin l = some (s, rest)) : ∀ y ∈ l, s.targetTime ≤ y.targetTime := by
  induction l generalizing s rest with
  | nil => simp [popMin] at h
  | cons x xs ih =>
    rcases hx : popMin xs with _ | ⟨m, mrest⟩
    · have : xs = [] := popMin_eq_none hx
      subst this
      simp only [popMin, hx, Option.some.injEq, Prod.mk.injEq] at h
      obtain ⟨rfl, rfl⟩ := h
      simp
    · have hmin := ih hx
      by_cases hc : x.targetTime ≤ m.targetTime
      · simp only [popMin, hx, if_pos hc, Option.some.injEq, Prod.mk.injEq] at h
        obtain ⟨rfl, rfl⟩ := h
        intro y hy
        rcases List.mem_cons.mp hy with rfl | hy
        · exact le_refl _
        · exact le_trans hc (hmin y hy)
      · simp only [popMin, hx, if_neg hc, Option.some.injEq, Prod.mk.injEq] at h
        obtain ⟨rfl, rfl⟩ := h
        intro y hy
        rcases List.mem_cons.mp hy with rfl | hy
        · exact le_of_not_le hc
        · exact hmin y hy

theorem popMin_mem {l : List (Sched α)} {s : Sched α} {rest : List (Sched α)}
    (h : popMin l = some (s, rest)) : s ∈ l := by
  induction l generalizing s rest with
  | nil => simp [popMin] at h
  | cons x xs ih =>
    rcases hx : popMin xs with _ | ⟨m, mrest⟩
    · simp only [popMin, hx, Option.some.injEq, Prod.mk.injEq] at h
      obtain ⟨rfl, rfl⟩ := h
      simp
    · by_cases hc : x.targetTime ≤ m.targetTime
      · simp only [popMin, hx, if_pos hc, Option.some.injEq, Prod.mk.injEq] at h
        obtain ⟨rfl, rfl⟩ := h
        simp
      · simp only [popMin, hx, if_neg hc, Option.some.injEq, Prod.mk.injEq] at h
        obtain ⟨rfl, rfl⟩ := h
        exact List.mem_cons_of_mem _ (ih hx)

theorem popMin_rest_mem {l : List (Sched α)} {s : Sched α} {rest : List (Sched α)}
    (h : popMin l = some (s, rest)) : ∀ y ∈ rest, y ∈ l := by
  induction l generalizing s rest with
  | nil => simp [popMin] at h
  | cons x xs ih =>
    rcases hx : popMin xs with _ | ⟨m, mrest⟩
    · simp only [popMin, hx, Option.some.injEq, Prod.mk.injEq] at h
      obtain ⟨rfl, rfl⟩ := h
      simp
    · by_cases hc : x.targetTime ≤ m.targetTime
      · simp only [popMin, hx, if_pos hc, Option.some.injEq, Prod.mk.injEq] at h
        obtain ⟨rfl, rfl⟩ := h
        intro y hy
        exact List.mem_cons_of_mem _ hy
      · simp only [popMin, hx, if_neg hc, Option.some.injEq, Prod.mk.injEq] at h
        obtain ⟨rfl, rfl⟩ := h
        intro y hy
        rcases List.mem_cons.mp hy with rfl | hy
        · simp
        · exact List.mem_cons_of_mem _ (ih hx y hy)

/-- Invariant-carrying correctness of the `advance` loop: if the loop
completes normally then the final time is `endT`, the fired targets are
nondecreasing and all strictly before `endT`, and every event still
pending is due at or after `endT` (so everything strictly before `endT`
— including events scheduled by callbacks during this very call —
fired). -/
theorem advanceLoop_ok {run : α → σ → Except ε (σ × List (Nat × α))} {endT : Nat} :
    ∀ {fuel : Nat} {st : σ} {pending : List (Sched α)} {fired : List Nat}
      {T : Nat} {st' : σ} {pending' : List (Sched α)} {fired' : List Nat},
      advanceLoop run endT fuel st pending fired = .ok T st' pending' fired' →
      fired.Chain' (· ≤ ·) →
      (∀ x ∈ fired, ∀ s ∈ pending, x ≤ s.targetTime) →
      (∀ x ∈ fired, x < endT) →
      T = endT ∧ fired'.Chain' (· ≤ ·) ∧ (∀ x ∈ fired', x < endT) ∧
        (∀ s ∈ pending', endT ≤ s.targetTime) := by
  intro fuel
  induction fuel with
  | zero => intro _ _ _ _ _ _ _ h _ _ _; exact absurd h (by simp [advanceLoop])
  | succ n ih =>
    intro st pending fired T st' pending' fired' h hchain hbound hlt
    rcases hp : popMin pending with _ | ⟨s, rest⟩
    · simp only [advanceLoop, hp, RunOut.ok.injEq] at h
      obtain ⟨rfl, rfl, rfl, rfl⟩ := h
      exact ⟨rfl, hchain, hlt, by simp⟩
    · by_cases hstop : endT ≤ s.targetTime
      · simp only [advanceLoop, hp, if_pos hstop, RunOut.ok.injEq] at h
        obtain ⟨rfl, rfl, rfl, rfl⟩ := h
        refine ⟨rfl, hchain, hlt, ?_⟩
        intro y hy
        rcases List.mem_cons.mp hy with rfl | hy
        · exact hstop
        · exact le_trans hstop (popMin_min hp y (popMin_rest_mem hp y hy))
      · rcases hr : run s.callback st with e | ⟨st₁, news⟩
        · simp [advanceLoop, hp, if_neg hstop, hr] at h
        · simp only [advanceLoop, hp, if_neg hstop, hr] at h
          have hs_lt : s.targetTime < endT := lt_of_not_le hstop
          refine ih h ?_ ?_ ?_
          · rw [List.chain'_append]
            refine ⟨hchain, List.chain'_singleton _, ?_⟩
            intro x hx y hy
            simp only [List.head?_cons, Option.mem_def, Option.some.injEq] at hy
            subst hy
            have hxmem : x ∈ fired := List.mem_of_mem_getLast? hx
            exact hbound x hxmem s (popMin_mem hp)
          · intro x hx y hy
            rcases List.mem_append.mp hx with hx | hx
            · rcases List.mem_append.mp hy with hy | hy
              · exact hbound x hx y (popMin_rest_mem hp y hy)
              · rcases List.mem_map.mp hy with ⟨p, _, rfl⟩
                exact le_trans (hbound x hx s (popMin_mem hp)) (Nat.le_add_right _ _)
            · simp only [List.mem_singleton] at hx
              subst hx
              rcases List.mem_append.mp hy with hy | hy
              · exact popMin_min hp y (popMin_rest_mem hp y hy)
              · rcases List.mem_map.mp hy with ⟨p, _, rfl⟩
                exact Nat.le_add_right _ _
          · intro x hx
            rcases List.mem_append.mp hx with hx | hx
            · exact hlt x hx
            · simp only [List.mem_singleton] at hx
              subst hx
              exact hs_lt

/-- C3: `Clock.advance(d)` (d ≥ 0) fires every pending callback whose
target is strictly before `now+d` (any event left pending afterwards is
due at or after `now+d`, so events scheduled by callbacks during the
same advance are honored within it when due before the end), in
nondecreasing target-time order, and afterwards the time is `now+d`;
in particular with events at 5, 3, 8 from time 0, `advance(10)` fires
them in the order 3, 5, 8 and leaves the time at 10. -/
theorem c3_clock_advance :
    (∀ (α σ ε : Type) (run : α → σ → Except ε (σ × List (Nat × α)))
        (fuel t d : Nat) (st : σ) (pending : List (Sched α))
        (T : Nat) (st' : σ) (pending' : List (Sched α)) (fired : List Nat),
        Clock.advance run fuel t d st pending = .ok T st' pending' fired →
        T = t + d ∧ fired.Chain' (· ≤ ·) ∧ (∀ x ∈ fired, x < t + d) ∧
          (∀ s ∈ pending', t + d ≤ s.targetTime)) ∧
    Clock.advance noopCb 4 0 10 () [⟨5, ()⟩, ⟨3, ()⟩, ⟨8, ()⟩] = .ok 10 () [] [3, 5, 8] := by
  constructor
  · intro α σ ε run fuel t d st pending T st' pending' fired h
    exact advanceLoop_ok h (by simp) (by simp) (by simp)
  · rfl

/-- Witness for C3: the general theorem applied to the concrete
5/3/8 example, its hypothesis discharged by computation. -/
theorem c3_clock_advance_witness :
    (10 : Nat) = 0 + 10 ∧ List.Chain' (· ≤ ·) [3, 5, 8] ∧
      (∀ x ∈ [3, 5, 8], x < 0 + 10) ∧
      (∀ s ∈ ([] : List (Sched Unit)), 0 + 10 ≤ s.targetTime) :=
  c3_clock_advance.1 Unit Unit Unit noopCb 4 0 10 ()
    [⟨5, ()⟩, ⟨3, ()⟩, ⟨8, ()⟩] 10 () [] [3, 5, 8] rfl

theorem readHram_writeHram_self (addr data : Nat) (m : Memory) (hwf : m.hramWF)
    (ha : 0xFF00 ≤ addr) (hb : addr < 0x10000) :
    (m._writeHram addr data)._readHram addr = data := by
  have hl : m.hram.length = 0x100 := hwf
  have hlen : addr - 0xFF00 < m.hram.length := by omega
  unfold Memory._writeHram Memory._readHram
  simp [List.getD_eq_getElem?_getD, List.getElem?_set_eq_of_lt _ hlen]

theorem write_DIV_eq (d : Nat) (m : Memory) (hd : d ≤ 0xFF) :
    Memory.write DIV d m = .ok (m._writeHram DIV d) := by
  have h1 : ¬(0x100 ≤ d) := by omega
  simp only [Memory.write, DIV, BGPD, OBPD, SB, SC, TIMA, TMA, TAC, WX, WY, LY,
    LCDC, STAT, SCX, SCY, LYC, BGP, OBP0, OBP1]
  rw [if_neg h1]
  norm_num

theorem read_DIV_eq (m : Memory) : Memory.read DIV m = .ok (m._readHram DIV) := by
  simp only [Memory.read, DIV, BGPD, OBPD, LCDC, STAT, LY, LYC,
    INTERRUPT_REQUEST_REG, TIMA, TMA, TAC, BGP, OBP0, OBP1]
  norm_num

theorem write_LY_eq (d : Nat) (m : Memory) (hd : d ≤ 0xFF) :
    Memory.write LY d m = .ok (m._writeHram LY 0x0) := by
  have h1 : ¬(0x100 ≤ d) := by omega
  simp only [Memory.write, DIV, BGPD, OBPD, SB, SC, TIMA, TMA, TAC, WX, WY, LY,
    LCDC, STAT, SCX, SCY, LYC, BGP, OBP0, OBP1]
  rw [if_neg h1]
  norm_num

theorem read_LY_eq (m : Memory) : Memory.read LY m = .ok (m._readHram LY) := by
  simp only [Memory.read, DIV, BGPD, OBPD, LCDC, STAT, LY, LYC,
    INTERRUPT_REQUEST_REG, TIMA, TMA, TAC, BGP, OBP0, OBP1]
  norm_num

/-- C1 (code_bug): in the premise state (vBlank and timer requested and
enabled, IME set), `Cpu.next` does NOT dispatch vBlank: clearing the
request bit calls `Memory.write` on the interrupt-request register
0xFF0F, which has no write case, so the step throws
`unsupported write of 4 at: FF0F` (4 = 0x05 with the vBlank bit
cleared).  Moreover the synthetic CALL is executed on
`vector << 8`, so even absent that error PC would become 0x4000, not
0x40 (second conjunct, shown where the push itself succeeds). -/
theorem c1_interrupt_dispatch_throws :
    exceptErr (Cpu.next machineC1) = some (.unsupportedWrite 0x4 INTERRUPT_REQUEST_REG) ∧
    machinePc (Cpu._call (getVectorFromInterrupt .vBlank <<< 8) machinePC50) = some 0x4000 :=
  ⟨rfl, rfl⟩

/-- C2 (code_bug): `Cpu.next` ends with a single `incrPc()` — PC
advances by exactly 1, regardless of instruction width and also on top
of an executor-assigned PC.  `JP a16` to 0x0200 leaves PC = 0x0201 (the
claim requires 0x0200); 3-byte `LD BC,d16` at 0x0150 leaves PC = 0x0151
(the claim requires 0x0153). -/
theorem c2_pc_advance :
    machinePc (Cpu.next machineJP) = some 0x201 ∧
    machinePc (Cpu.next machineJP) ≠ some 0x200 ∧
    machinePc (Cpu.next machineLD) = some 0x151 ∧
    machinePc (Cpu.next machineLD) ≠ some 0x153 :=
  ⟨rfl, by decide, rfl, by decide⟩

/-- C4 (code_bug): `_push` writes `value & HI_8` — the high byte still
shifted — so pushing any value ≥ 0x100 makes `Memory.write` throw
`Writing data bigger than a byte` (first conjunct, v = 0x0100).  For
values below 0x100 the round trip does hold (second conjunct,
v = 0x42: BC and SP restored exactly). -/
theorem c4_stack_roundtrip :
    exceptErr (RegisterStore.pushBc { RegisterStore.init with bc := 0x0100 } memInit)
      = some (.writeTooBig 0x0100) ∧
    rmRegs ((RegisterStore.pushBc { RegisterStore.init with bc := 0x42 } memInit).bind
        fun p => RegisterStore.popBc p.1 p.2)
      = some { RegisterStore.init with bc := 0x42 } :=
  ⟨rfl, rfl⟩

/-- C5 (code_bug): `getA()` returns `AF & ~255` — the accumulator byte
still shifted left by 8 — so with A = 1 (`AF = 0x0100`), `add(0)`
computes `rawSum = 0x100`: flags become Carry|Zero = 0x90 and the
result byte 0, while the claim's truth table requires flags 0x00 and
result 1.  Likewise `sub(1)` yields flags N|H = 0x60 and result 0xFF
instead of Z|N = 0xC0 and result 0. -/
theorem c5_add_sub_flags :
    (regsA1.add 0).1 = 0 ∧ (regsA1.add 0).2.getF = 0x90 ∧
    specAddFlags 1 0 = 0 ∧ (1 + 0) % 0x100 = 1 ∧
    (regsA1.add 0).2.getF ≠ specAddFlags 1 0 ∧
    (regsA1.add 0).1 ≠ (1 + 0) % 0x100 ∧
    (regsA1.sub 1).1 = 0xFF ∧ (regsA1.sub 1).2.getF = 0x60 ∧
    specSubFlags 1 1 = 0xC0 ∧ (regsA1.sub 1).2.getF ≠ specSubFlags 1 1 := by
  decide

/-- C7 (code_bug): already on the power-on state the 8-bit sub-view
`getA()` returns 0x1100 > 0xFF (the high byte is returned still
shifted), and a single `incrA()` drives the 16-bit AF cell to
0x110110 > 0xFFFF (`_incr8` adds 1 to the shifted high byte and shifts
again). -/
theorem c7_register_range_violated :
    RegisterStore.init.getA = 0x1100 ∧ 0xFF < RegisterStore.init.getA ∧
    RegisterStore.init.incrA.af = 0x110110 ∧ 0xFFFF < RegisterStore.init.incrA.af := by
  decide

/-- C8 counterexample: writing 5 to the divider register leaves 5
there, not 0 — `Memory.write` routes DIV writes to plain hram storage
(src/Memory.ts lines 138–139). -/
theorem c8_div_counterexample :
    (Memory.write DIV 0x5 memInit).bind (Memory.read DIV) = .ok 0x5 ∧
    (Memory.write DIV 0x5 memInit).bind (Memory.read DIV) ≠ .ok 0 := by
  have h1 : (Memory.write DIV 0x5 memInit).bind (Memory.read DIV) = .ok 0x5 := rfl
  refine ⟨h1, fun h => ?_⟩
  rw [h1] at h
  exact absurd (Except.ok.inj h) (by decide)

/-- C8 amended: a `Memory.write` of d ≤ 0xFF to the divider register
0xFF04 stores d as-is, and a subsequent read of 0xFF04 returns d (the
write-forces-zero behavior belongs to LY/0xFF44, not DIV). -/
theorem c8_div_write_stores (d : Nat) (m : Memory) (hd : d ≤ 0xFF) (hwf : m.hramWF) :
    (Memory.write DIV d m).bind (Memory.read DIV) = .ok d := by
  rw [write_DIV_eq d m hd]
  show Memory.read DIV (m._writeHram DIV d) = .ok d
  rw [read_DIV_eq, readHram_writeHram_self DIV d m hwf (by norm_num [DIV]) (by norm_num [DIV])]

/-- Witness for C8's amended claim at d = 5 on the power-on memory. -/
theorem c8_div_write_stores_witness :
    (Memory.write DIV 0x5 memInit).bind (Memory.read DIV) = .ok 0x5 :=
  c8_div_write_stores 0x5 memInit (by decide) (by rfl)

/-- C10: a successful `Memory.write` of any d ≤ 0xFF to the
current-line register 0xFF44 stores 0, and a subsequent read returns 0;
consequently the Display's hBlank handler (`read LY; write LY (ly+1)`)
leaves the stored current-line value unchanged on every reachable state
(where it is 0). -/
theorem c10_ly_write_zero :
    (∀ (d : Nat) (m : Memory), d ≤ 0xFF → m.hramWF →
      (Memory.write LY d m).bind (Memory.read LY) = .ok 0) ∧
    (∀ (m : Memory), m.hramWF → m._readHram LY = 0 →
      (Display._hblankLyWrite m).bind (Memory.read LY) = .ok (m._readHram LY)) := by
  constructor
  · intro d m hd hwf
    rw [write_LY_eq d m hd]
    show Memory.read LY (m._writeHram LY 0x0) = .ok 0
    rw [read_LY_eq,
      readHram_writeHram_self LY 0x0 m hwf (by norm_num [LY]) (by norm_num [LY])]
  · intro m hwf h0
    unfold Display._hblankLyWrite
    rw [read_LY_eq, h0]
    show (Memory.write LY (0 + 1) m).bind (Memory.read LY) = .ok 0
    rw [write_LY_eq (0 + 1) m (by norm_num)]
    show Memory.read LY (m._writeHram LY 0x0) = .ok 0
    rw [read_LY_eq,
      readHram_writeHram_self LY 0x0 m hwf (by norm_num [LY]) (by norm_num [LY])]

/-- Witness for C10: LY write of 7 reads back 0; the hBlank LY write on
the power-on memory leaves LY at its stored value (0). -/
theorem c10_ly_write_zero_witness :
    (Memory.write LY 0x7 memInit).bind (Memory.read LY) = .ok 0 ∧
    (Display._hblankLyWrite memInit).bind (Memory.read LY) = .ok (memInit._readHram LY) :=
  ⟨c10_ly_write_zero.1 0x7 memInit (by decide) (by rfl),
   c10_ly_write_zero.2 memInit (by rfl) (by rfl)⟩

set_option maxHeartbeats 3200000 in
/-- C9: the three fatal failure modes.  (a) an opcode byte outside the
supported instruction set decodes to the error carrying the opcode and
the current PC; (b) a write or read at an address outside every
recognized range errors with the address (and the written data);
(c) a write of a value > 0xFF errors with the value, and a
RAM-bank-select write (address 0x4000–0x5FFF) with a code outside
{0–3} ∪ {8–0xC} errors with the code.  Each error is returned without
any state modification, as in the source, where every `throw` precedes
the mutations of its operation. -/
theorem c9_error_taxonomy :
    (∀ (c : Machine) (opcode : Nat), opcode < 0x100 → opcode ∉ supportedOpcodes →
       Cpu._getOpcode c opcode = .error (.unimplInstr opcode c.regs.getPc)) ∧
    (∀ (addr data : Nat) (m : Memory), data ≤ 0xFF → ¬ writeRecognized addr →
       Memory.write addr data m = .error (.unsupportedWrite data addr)) ∧
    (∀ (addr : Nat) (m : Memory), ¬ readRecognized addr →
       Memory.read addr m = .error (.readUnsupported addr)) ∧
    (∀ (addr data : Nat) (m : Memory), 0x100 ≤ data →
       Memory.write addr data m = .error (.writeTooBig data)) ∧
    (∀ (addr data : Nat) (m : Memory), 0x4000 ≤ addr → addr < 0x6000 → data ≤ 0xFF →
       ¬(data < 0x4 ∨ (0x8 ≤ data ∧ data ≤ 0xC)) →
       Memory.write addr data m = .error (.invalidRamBank data)) := by
  refine ⟨?_, ?_, ?_, ?_, ?_⟩
  · intro c opcode hlt hns
    interval_cases opcode <;> first | rfl | exact absurd (by decide) hns
  · intro addr data m hd hrec
    have h1 : ¬(0x100 ≤ data) := by omega
    have hA : ¬(addr < 0xA000) := fun h => hrec (Or.inl h)
    have hC : ¬(0xC000 ≤ addr ∧ addr < 0xE000) := fun h => hrec (Or.inr (Or.inl h))
    unfold Memory.write
    rw [if_neg h1, if_neg (by omega : ¬(addr < 0x2000)),
      if_neg (by omega : ¬(addr < 0x4000)), if_neg (by omega : ¬(addr < 0x6000)),
      if_neg (by omega : ¬(addr < 0x8000)), if_neg hA,
      if_neg (by omega : ¬(0xC000 ≤ addr ∧ addr < 0xD000)),
      if_neg (by omega : ¬(0xD000 ≤ addr ∧ addr < 0xE000))]
    by_cases hRange : 0xFF00 ≤ addr ∧ addr < 0x10000
    · have hreg : ¬(addr ∈ ([BGPD, OBPD, SB, SC, TIMA, TMA, DIV, TAC, WX, WY, LY,
          LCDC, STAT, SCX, SCY, LYC, BGP, OBP0, OBP1] : List Nat) ∨ 0xFF80 ≤ addr) :=
        fun h => hrec (Or.inr (Or.inr ⟨hRange.1, hRange.2, h⟩))
      have hmem : addr ∉ ([BGPD, OBPD, SB, SC, TIMA, TMA, DIV, TAC, WX, WY, LY,
          LCDC, STAT, SCX, SCY, LYC, BGP, OBP0, OBP1] : List Nat) :=
        fun h => hreg (Or.inl h)
      have hhi : ¬(0xFF80 ≤ addr) := fun h => hreg (Or.inr h)
      simp only [List.mem_cons, List.not_mem_nil, or_false, not_or] at hmem
      obtain ⟨n1, n2, n3, n4, n5, n6, n7, n8, n9, n10, n11, n12, n13, n14, n15,
        n16, n17, n18, n19⟩ := hmem
      rw [if_pos hRange, if_neg n1, if_neg n2, if_neg (not_or.mpr ⟨n3, n4⟩),
        if_neg (not_or.mpr ⟨n5, not_or.mpr ⟨n6, not_or.mpr ⟨n7, n8⟩⟩⟩),
        if_neg (not_or.mpr ⟨n9, n10⟩), if_neg n11,
        if_neg (not_or.mpr ⟨n12, not_or.mpr ⟨n13, not_or.mpr ⟨n14, not_or.mpr ⟨n15, n16⟩⟩⟩⟩),
        if_neg (not_or.mpr ⟨n17, not_or.mpr ⟨n18, n19⟩⟩), if_neg hhi]
    · rw [if_neg hRange]
  · intro addr m hrec
    have f1 : ¬(addr < 0x4000) := fun h => hrec (Or.inl h)
    have f2 : ¬(0x8000 ≤ addr ∧ addr < 0xA000) := fun h => hrec (Or.inr (Or.inl h))
    have f3 : ¬(0xC000 ≤ addr ∧ addr < 0xE000) :=
      fun h => hrec (Or.inr (Or.inr (Or.inl h)))
    unfold Memory.read
    rw [if_neg f1]
    by_cases hB : addr < 0x8000
    · rw [if_pos hB]
    · rw [if_neg hB, if_neg (by omega : ¬(addr < 0xA000)),
        if_neg (by omega : ¬(0xC000 ≤ addr ∧ addr < 0xD000)),
        if_neg (by omega : ¬(0xD000 ≤ addr ∧ addr < 0xE000))]
      by_cases hRange : 0xFF00 ≤ addr ∧ addr < 0x10000
      · have hreg : ¬(addr ∈ ([OBPD, BGPD, LCDC, STAT, LY, LYC,
            INTERRUPT_REQUEST_REG, TIMA, TMA, DIV, TAC, BGP, OBP0,
            OBP1] : List Nat) ∨ 0xFF80 ≤ addr) :=
          fun h => hrec (Or.inr (Or.inr (Or.inr ⟨hRange.1, hRange.2, h⟩)))
        have hmem : addr ∉ ([OBPD, BGPD, LCDC, STAT, LY, LYC,
            INTERRUPT_REQUEST_REG, TIMA, TMA, DIV, TAC, BGP, OBP0,
            OBP1] : List Nat) := fun h => hreg (Or.inl h)
        have hhi : ¬(0xFF80 ≤ addr) := fun h => hreg (Or.inr h)
        simp only [List.mem_cons, List.not_mem_nil, or_false, not_or] at hmem
        obtain ⟨r1, r2, r3, r4, r5, r6, r7, r8, r9, r10, r11, r12, r13, r14⟩ := hmem
        rw [if_pos hRange, if_neg r1, if_neg r2,
          if_neg (not_or.mpr ⟨r3, not_or.mpr ⟨r4, not_or.mpr ⟨r5, r6⟩⟩⟩),
          if_neg r7,
          if_neg (not_or.mpr ⟨r8, not_or.mpr ⟨r9, not_or.mpr ⟨r10, r11⟩⟩⟩),
          if_neg (not_or.mpr ⟨r12, not_or.mpr ⟨r13, r14⟩⟩), if_neg hhi]
      · rw [if_neg hRange]
  · intro addr data m h
    unfold Memory.write
    rw [if_pos h]
  · intro addr data m h4 h6 hd hn
    have h1 : ¬(0x100 ≤ data) := by omega
    have h2 : ¬(addr < 0x2000) := by omega
    have h3 : ¬(addr < 0x4000) := by omega
    unfold Memory.write Mbc3.selectRamBank
    rw [if_neg h1, if_neg h2, if_neg h3, if_pos h6, if_neg hn]

/-- Witness for C9: each failure mode exercised at a concrete input
(opcode 0xD3; write at 0xA123; read at 0x4444; write of 0x123;
RAM-bank code 5). -/
theorem c9_error_taxonomy_witness :
    Cpu._getOpcode (Machine.mk0 romZero) 0xD3
      = .error (.unimplInstr 0xD3 (Machine.mk0 romZero).regs.getPc) ∧
    Memory.write 0xA123 0x7 memInit = .error (.unsupportedWrite 0x7 0xA123) ∧
    Memory.read 0x4444 memInit = .error (.readUnsupported 0x4444) ∧
    Memory.write 0xFF80 0x123 memInit = .error (.writeTooBig 0x123) ∧
    Memory.write 0x4000 0x5 memInit = .error (.invalidRamBank 0x5) :=
  ⟨c9_error_taxonomy.1 (Machine.mk0 romZero) 0xD3 (by decide) (by decide),
   c9_error_taxonomy.2.1 0xA123 0x7 memInit (by decide) (by unfold writeRecognized; decide),
   c9_error_taxonomy.2.2.1 0x4444 memInit (by unfold readRecognized; decide),
   c9_error_taxonomy.2.2.2.1 0xFF80 0x123 memInit (by decide),
   c9_error_taxonomy.2.2.2.2 0x4000 0x5 memInit (by decide) (by decide) (by decide)
     (by decide)⟩

theorem popMin_shift (c : Nat) (l : List (Sched α)) :
    popMin (l.map (shiftSched c)) =
      (popMin l).map (fun p => (shiftSched c p.1, p.2.map (shiftSched c))) := by
  induction l with
  | nil => rfl
  | cons x xs ih =>
    simp only [List.map_cons, popMin, ih]
    cases hx : popMin xs with
    | none => rfl
    | some p =>
      rcases p with ⟨m, rest⟩
      simp only [Option.map_some']
      by_cases hc : x.targetTime ≤ m.targetTime
      · rw [if_pos (show (shiftSched c x).targetTime ≤ (shiftSched c m).targetTime from
          Nat.add_le_add_left hc c), if_pos hc]
        rfl
      · rw [if_neg (show ¬(shiftSched c x).targetTime ≤ (shiftSched c m).targetTime from
          fun h => hc (Nat.le_of_add_le_add_left h)), if_neg hc]
        rfl

theorem advanceLoop_shift (run : α → σ → Except ε (σ × List (Nat × α))) (c : Nat) :
    ∀ (fuel endT : Nat) (st : σ) (pending : List (Sched α)) (fired : List Nat),
      advanceLoop run (c + endT) fuel st (pending.map (shiftSched c))
          (fired.map (c + ·)) =
        (advanceLoop run endT fuel st pending fired).shift c := by
  intro fuel
  induction fuel with
  | zero => intros; rfl
  | succ n ih =>
    intro endT st pending fired
    simp only [advanceLoop, popMin_shift]
    cases hp : popMin pending with
    | none => rfl
    | some p =>
      rcases p with ⟨s, rest⟩
      simp only [Option.map_some']
      by_cases hstop : endT ≤ s.targetTime
      · rw [if_pos (show c + endT ≤ (shiftSched c s).targetTime from
          Nat.add_le_add_left hstop c), if_pos hstop]
        rfl
      · rw [if_neg (show ¬c + endT ≤ (shiftSched c s).targetTime from
          fun h => hstop (Nat.le_of_add_le_add_left h)), if_neg hstop,
          show (shiftSched c s).callback = s.callback from rfl,
          show (shiftSched c s).targetTime = c + s.targetTime from rfl]
        cases hr : run s.callback st with
        | error e => rfl
        | ok q =>
          rcases q with ⟨st', news⟩
          have hf : (shiftSched c ∘ schedule s.targetTime : Nat × α → Sched α)
              = schedule (c + s.targetTime) := by
            funext q
            simp [schedule, shiftSched, Nat.add_assoc]
          have e1 : rest.map (shiftSched c)
                ++ news.map (schedule (c + s.targetTime))
              = (rest ++ news.map (schedule s.targetTime)).map (shiftSched c) := by
            rw [List.map_append, List.map_map, hf]
          have e2 : fired.map (c + ·) ++ [c + s.targetTime]
              = (fired ++ [s.targetTime]).map (c + ·) := by
            simp
          show advanceLoop run (c + endT) n st'
              (rest.map (shiftSched c) ++ news.map (schedule (c + s.targetTime)))
              (fired.map (c + ·) ++ [c + s.targetTime])
            = RunOut.shift c (advanceLoop run endT n st'
              (rest ++ news.map (schedule s.targetTime)) (fired ++ [s.targetTime]))
          rw [e1, e2]
          exact ih endT st' (rest ++ news.map (schedule s.targetTime))
            (fired ++ [s.targetTime])

theorem advanceLoop_shift0 (run : α → σ → Except ε (σ × List (Nat × α)))
    (c fuel endT : Nat) (st : σ) (pending : List (Sched α)) :
    advanceLoop run (c + endT) fuel st (pending.map (shiftSched c)) [] =
      (advanceLoop run endT fuel st pending []).shift c := by
  have := advanceLoop_shift run c fuel endT st pending []
  simpa using this

theorem stepAdv_shift (d c : Nat) (s : DispSt) :
    stepAdv d (s.shift c) = (stepAdv d s).map (DispSt.shift c) := by
  show (match advanceLoop Display._handleMode (c + s.time + d) 8 s.mem
      (s.pending.map (shiftSched c)) [] with
    | .ok T st p _ => some (⟨T, st, p⟩ : DispSt)
    | _ => none)
    = (match advanceLoop Display._handleMode (s.time + d) 8 s.mem s.pending [] with
      | .ok T st p _ => some (⟨T, st, p⟩ : DispSt)
      | _ => none).map (DispSt.shift c)
  rw [show c + s.time + d = c + (s.time + d) from Nat.add_assoc c s.time d,
    advanceLoop_shift0]
  cases advanceLoop Display._handleMode (s.time + d) 8 s.mem s.pending [] with
  | ok T st p f => rfl
  | err e => rfl
  | out => rfl

theorem lineFun_shift (c : Nat) (s : DispSt) :
    lineFun (s.shift c) = (lineFun s).map (DispSt.shift c) := by
  unfold lineFun
  rw [stepAdv_shift]
  cases stepAdv TRANSFERING_TIME s with
  | none => rfl
  | some s1 =>
    show (stepAdv HBLANK_TIME (s1.shift c)).bind (stepAdv SEARCHING_TIME)
      = ((stepAdv HBLANK_TIME s1).bind (stepAdv SEARCHING_TIME)).map (DispSt.shift c)
    rw [stepAdv_shift]
    cases stepAdv HBLANK_TIME s1 with
    | none => rfl
    | some s2 =>
      show stepAdv SEARCHING_TIME (s2.shift c)
        = (stepAdv SEARCHING_TIME s2).map (DispSt.shift c)
      rw [stepAdv_shift]

theorem DispSt.shift_shift (a b : Nat) (s : DispSt) :
    (s.shift b).shift a = s.shift (a + b) := by
  have hf : (shiftSched a ∘ shiftSched b : Sched Mode → Sched Mode)
      = shiftSched (a + b) := by
    funext q
    simp [shiftSched, Nat.add_assoc]
  simp [DispSt.shift, List.map_map, hf, Nat.add_assoc]

theorem statBits_shift (c : Nat) (s : DispSt) : (s.shift c).statBits = s.statBits := rfl

theorem lyVal_shift (c : Nat) (s : DispSt) : (s.shift c).lyVal = s.lyVal := rfl

theorem vblankReq_shift (c : Nat) (s : DispSt) : (s.shift c).vblankReq = s.vblankReq := rfl

theorem lineFun_lineStart : lineFun lineStart = some (lineStart.shift 456) := rfl

/-- C6 (code_bug): under the claim's 80/172/204 driving pattern, the
status register's low 2 mode bits do cycle Searching(2) →
Transferring(3) → HBlank(0) within every line — but because
`Memory.write` forces LY to 0 (src/Memory.ts lines 143–144), the line
counter never advances: after EVERY line (in particular for all
n ≤ 144, so also after a full frame) the machine is back at Searching
with LY = 0, VBlank is never entered, and the vBlank request bit is
still 0 — the claim's VBlank(1) phase and once-per-frame vBlank request
never happen. -/
theorem c6_display_cycle : ∀ n : Nat,
    iterLines n = some (lineStart.shift (456 * n)) ∧
    (iterLines n).map DispSt.statBits = some 2 ∧
    ((iterLines n).bind (stepAdv TRANSFERING_TIME)).map DispSt.statBits = some 3 ∧
    (((iterLines n).bind (stepAdv TRANSFERING_TIME)).bind
        (stepAdv HBLANK_TIME)).map DispSt.statBits = some 0 ∧
    (iterLines n).map DispSt.lyVal = some 0 ∧
    (iterLines n).map DispSt.vblankReq = some 0 := by
  have key : ∀ n : Nat, iterLines n = some (lineStart.shift (456 * n)) := by
    intro n
    induction n with
    | zero => rfl
    | succ k ih =>
      show (iterLines k).bind lineFun = _
      rw [ih]
      show lineFun (lineStart.shift (456 * k)) = _
      rw [lineFun_shift, lineFun_lineStart]
      show some ((lineStart.shift 456).shift (456 * k)) = _
      rw [DispSt.shift_shift]
      rw [show 456 * k + 456 = 456 * (k + 1) from by ring]
  intro n
  refine ⟨key n, ?_, ?_, ?_, ?_, ?_⟩
  · rw [key n]
    simp only [Option.map_some']
    rw [statBits_shift]
    rfl
  · rw [key n]
    show (stepAdv TRANSFERING_TIME (lineStart.shift (456 * n))).map DispSt.statBits
      = some 3
    rw [stepAdv_shift, show stepAdv TRANSFERING_TIME lineStart = some lineMid1 from rfl]
    simp only [Option.map_some']
    rw [statBits_shift]
    rfl
  · rw [key n]
    show ((stepAdv TRANSFERING_TIME (lineStart.shift (456 * n))).bind
        (stepAdv HBLANK_TIME)).map DispSt.statBits = some 0
    rw [stepAdv_shift, show stepAdv TRANSFERING_TIME lineStart = some lineMid1 from rfl]
    show (stepAdv HBLANK_TIME (lineMid1.shift (456 * n))).map DispSt.statBits = some 0
    rw [stepAdv_shift, show stepAdv HBLANK_TIME lineMid1 = some lineMid2 from rfl]
    simp only [Option.map_some']
    rw [statBits_shift]
    rfl
  · rw [key n]
    simp only [Option.map_some']
    rw [lyVal_shift]
    rfl
  · rw [key n]
    simp only [Option.map_some']
    rw [vblankReq_shift]
    rfl
